import Mathlib

/-! Replication-lag poller (`go/vt/vttablet/tabletserver/repltracker/poller.go`).

A shallow embedding of the `poller` type, of `poller.InitDBConfig` and of
`poller.Status`, together with the pieces of the Go runtime the two methods
rely on: 64-bit signed `time.Duration` arithmetic, `time.Since`,
`Time.IsZero`, `Duration.Seconds` (a binary64 computation) and the
conversion of its result back to `int64`.

Conventions.
* A `time.Duration` is an `Int` number of nanoseconds; every arithmetic
  result is reduced into the signed 64-bit range by `wrap64`.
* A `time.Time` is an `Int`: the instant in nanoseconds on the clock's time
  line, measured from the zero `Time`, so that `IsZero` is `t = 0`.
  `time.Now` and `time.Since` read one clock, given to each call as `now`.
  That the clock shows instants after the zero `Time` and never goes back
  (the monotonic reading of a `Time` taken by `time.Now`) is not built into
  `Status`; statements over runs assume it through `clockFrom`.
* A binary64 value is the rational number it denotes; every float operation
  rounds its exact result with `roundFloat64` (nearest, ties to even).
* The mutex `mu` has no field: a call of `Status` is one atomic step.
-/

namespace repltracker

/-! ## Machine integers and `time.Duration` -/

/-- Two's-complement reduction of an integer into the `int64` range. -/
def wrap64 (x : Int) : Int := (x + 2 ^ 63) % 2 ^ 64 - 2 ^ 63

/-- The constant `time.Second`, in nanoseconds. -/
def Second : Int := 1000000000

/-- The smallest `time.Duration`. -/
def minDuration : Int := -(2 ^ 63)

/-- The largest `time.Duration`. -/
def maxDuration : Int := 2 ^ 63 - 1

/-- The sum `a + b` of two `time.Duration` values. -/
def Duration.add (a b : Int) : Int := wrap64 (a + b)

/-- The product `a * b` of two `time.Duration` values. -/
def Duration.mul (a b : Int) : Int := wrap64 (a * b)

/-- The conversion `time.Duration(n)` of an unsigned integer. -/
def Duration.ofUint (n : Nat) : Int := wrap64 n

/-- Membership in the `int64` range. -/
def inInt64 (x : Int) : Prop := minDuration ≤ x ∧ x ≤ maxDuration

instance (x : Int) : Decidable (inInt64 x) := by
  unfold inInt64; exact inferInstance

/-! ## `time.Time` -/

/-- An instant: nanoseconds from the zero `Time`. -/
abbrev Time := Int

/-- The method `Time.IsZero`. -/
def Time.IsZero (t : Time) : Bool := t == 0

/-- The method `Time.Sub`: the difference `t - u`, saturated to the range of
`time.Duration`. -/
def Time.Sub (t u : Time) : Int :=
  if t - u < minDuration then minDuration
  else if maxDuration < t - u then maxDuration
  else t - u

/-- The function `time.Since t`, evaluated when the clock shows `now`. -/
def Since (now t : Time) : Int := Time.Sub now t

/-! ## binary64 arithmetic, as far as `Duration.Seconds` needs it -/

/-- Rounding of a rational to the nearest integer, ties to the even one. -/
def roundHalfEven (q : ℚ) : Int :=
  let f := ⌊q⌋
  if q - f < 1 / 2 then f
  else if 1 / 2 < q - f then f + 1
  else if f % 2 = 0 then f else f + 1

/-- Rounding of an exact result to binary64 (53 significant bits, nearest,
ties to even). Exponent range limits are left out: every value that occurs
has magnitude between `10⁻⁹` and `2⁶⁴`, or is zero. -/
def roundFloat64 (q : ℚ) : ℚ :=
  if q = 0 then 0
  else
    let e : Int := Int.log 2 |q|
    let ulp : ℚ := 2 ^ (e - 52)
    (roundHalfEven (q / ulp) : ℚ) * ulp

/-- The conversion `float64(n)` of an `int64`. -/
def float64OfInt (n : Int) : ℚ := roundFloat64 n

/-- The method `Duration.Seconds`:
`sec := d / Second; nsec := d % Second; return float64(sec) + float64(nsec)/1e9`. -/
def Seconds (d : Int) : ℚ :=
  let sec := Int.tdiv d Second
  let nsec := Int.tmod d Second
  roundFloat64 (float64OfInt sec + roundFloat64 (float64OfInt nsec / 1000000000))

/-- The conversion `int64(f)` of a binary64 value: truncation toward zero.
Every value of `Seconds` lies well inside the `int64` range, where the
conversion is defined. -/
def int64OfFloat (f : ℚ) : Int := if 0 ≤ f then ⌊f⌋ else ⌈f⌉

/-! ## Collaborators declared outside the source file -/

/-- Modelled from the spec: the enumeration `vtrpcpb.Code` is declared in the
generated protocol package, which is not part of the source file. The poller
uses the member `Code_UNAVAILABLE` only ("service temporarily unable to
answer"). -/
inductive Code where
  | OK | CANCELED | UNKNOWN | INVALID_ARGUMENT | DEADLINE_EXCEEDED | NOT_FOUND
  | ALREADY_EXISTS | PERMISSION_DENIED | RESOURCE_EXHAUSTED
  | FAILED_PRECONDITION | ABORTED | OUT_OF_RANGE | UNIMPLEMENTED | INTERNAL
  | UNAVAILABLE | DATA_LOSS | UNAUTHENTICATED
  deriving DecidableEq, Repr

/-- A Go `error` value as `Status` can return it: either the very error the
daemon's query returned (`ε` is the type of those), or an error built by
`vterrors.Errorf`, which carries a code and a message. -/
inductive Error (ε : Type) where
  | source (e : ε)
  | vterror (code : Code) (message : String)
  deriving DecidableEq, Repr

/-- Modelled from the spec: `vterrors.Errorf(code, format)` is declared in
the package `vterrors`, which is not part of the source file; it builds an
error carrying the code and, with no further arguments, the format string as
its message. -/
def vterrors.Errorf {ε : Type} (code : Code) (format : String) : Error ε :=
  Error.vterror code format

/-- Modelled from the spec: the reply type `ReplicationStatus` of the daemon
is declared outside the source file. It "indicates whether replication is
currently running, whether the lag value is knowable, and if knowable, the
lag in seconds". The seconds count is an unsigned integer, kept as a `Nat`
of any size; the conversion `time.Duration(n)` reduces it into the signed
64-bit range. -/
structure ReplicationStatus where
  running : Bool
  ReplicationLagUnknown : Bool
  ReplicationLagSeconds : Nat
  deriving DecidableEq, Repr

/-- Modelled from the spec: the method `ReplicationStatus.ReplicationRunning`
is declared outside the source file; it reports whether replication is
currently running. -/
def ReplicationStatus.ReplicationRunning (s : ReplicationStatus) : Bool := s.running

/-- The seconds count of a reply converts to a `time.Duration` without
wrap-around: `s * Second` does not exceed the largest `time.Duration`, that
is, `s ≤ 9223372036`. -/
def ReplicationStatus.fits (s : ReplicationStatus) : Prop :=
  (s.ReplicationLagSeconds : Int) * Second ≤ maxDuration

instance (s : ReplicationStatus) : Decidable s.fits := by
  unfold ReplicationStatus.fits; exact inferInstance

/-- One answer of the environment to `mysqld.ReplicationStatus()`, for each
daemon that may be asked: the pair `(status, err)` as an `Except`. -/
abbrev Query (M ε : Type) := M → Except ε ReplicationStatus

/-! ## The poller -/

/-- The struct `poller`. The field `mysqld` holds an interface value, `none`
being the nil interface. -/
structure poller (M : Type) where
  mysqld : Option M
  lag : Int
  timeRecorded : Time
  deriving DecidableEq, Repr

/-- The state a call can read and write: the poller and the package-level
gauge `replicationLagSeconds`. -/
structure World (M : Type) where
  p : poller M
  replicationLagSeconds : Int
  deriving DecidableEq, Repr

/-- Modelled from the spec: `stats.Gauge.Set` is declared in the package
`stats`, which is not part of the source file; it is the gauge sink's "set
current value". -/
def Gauge.Set {M : Type} (w : World M) (v : Int) : World M :=
  { w with replicationLagSeconds := v }

/-- The zero value `&poller{}` next to the gauge as `stats.NewGauge` leaves
it. -/
def World.fresh (M : Type) : World M :=
  { p := { mysqld := none, lag := 0, timeRecorded := 0 }, replicationLagSeconds := 0 }

/-- What a returning call of `Status` leaves: the state after the call and
the two returned values. -/
structure Outcome (M ε : Type) where
  world : World M
  lag : Int
  err : Option (Error ε)
  deriving DecidableEq, Repr

/-- The method `poller.InitDBConfig`. -/
def InitDBConfig {M : Type} (w : World M) (mysqld : Option M) : World M :=
  { w with p := { w.p with mysqld := mysqld } }

/-- The method `poller.Status`, run when the clock shows `now` and the
daemons answer by `query`. The result is `none` when the call does not
return: the method call on a nil `mysqld` panics. -/
def Status {M ε : Type} (query : Query M ε) (now : Time) (w : World M) :
    Option (Outcome M ε) :=
  match w.p.mysqld with
  | none => none
  | some m =>
    match query m with
    | .error err => some { world := w, lag := 0, err := some (Error.source err) }
    | .ok status =>
      if !status.ReplicationRunning || status.ReplicationLagUnknown then
        if w.p.timeRecorded.IsZero then
          some { world := w, lag := 0,
                 err := some (vterrors.Errorf Code.UNAVAILABLE "replication is not running") }
        else
          some { world := w, lag := Duration.add (Since now w.p.timeRecorded) w.p.lag, err := none }
      else
        let lag := Duration.mul (Duration.ofUint status.ReplicationLagSeconds) Second
        let w1 : World M := { w with p := { w.p with lag := lag, timeRecorded := now } }
        let w2 := Gauge.Set w1 (int64OfFloat (Seconds w1.p.lag))
        some { world := w2, lag := w2.p.lag, err := none }

/-! ## Sequences of calls -/

/-- One call on the tracker, with what the environment supplies to it: the
daemon handed to `InitDBConfig`, or the answers of the daemons and the clock
reading during a call of `Status`. -/
inductive Call (M ε : Type) where
  | InitDBConfig (mysqld : Option M)
  | Status (query : Query M ε) (now : Time)

/-- The state after one call; `none` when the call panics. -/
def step {M ε : Type} (w : World M) : Call M ε → Option (World M)
  | Call.InitDBConfig mysqld => some (InitDBConfig w mysqld)
  | Call.Status query now => (Status query now w).map Outcome.world

/-- The seconds count a call observes when run in state `w`: the reply's
count when the query succeeds and reports replication running with a known
lag, nothing otherwise. -/
def Call.observation {M ε : Type} (w : World M) : Call M ε → Option Nat
  | Call.InitDBConfig _ => none
  | Call.Status query _ =>
    match w.p.mysqld with
    | none => none
    | some m =>
      match query m with
      | .error _ => none
      | .ok status =>
        if !status.ReplicationRunning || status.ReplicationLagUnknown then none
        else some status.ReplicationLagSeconds

/-- A state of the tracker together with two history variables: the seconds
count of the most recent real observation, if there has been one, and the
number of calls that made a real observation so far. -/
structure Ghost (M : Type) where
  world : World M
  lastSeconds : Option Nat
  observations : Nat

/-- The freshly constructed tracker with an empty history. -/
def Ghost.fresh (M : Type) : Ghost M :=
  { world := World.fresh M, lastSeconds := none, observations := 0 }

/-- The calls of a list run one after the other, the history variable kept
alongside; `none` when one of them panics. -/
def run {M ε : Type} (g : Ghost M) : List (Call M ε) → Option (Ghost M)
  | [] => some g
  | c :: cs =>
    match step g.world c with
    | none => none
    | some w1 =>
      match c.observation g.world with
      | some s =>
        run { world := w1, lastSeconds := some s, observations := g.observations + 1 } cs
      | none =>
        run { world := w1, lastSeconds := g.lastSeconds, observations := g.observations } cs

/-- The clock readings of the calls of a list never go back, starting from a
reading `t`. -/
def clockFrom {M ε : Type} (t : Time) : List (Call M ε) → Prop
  | [] => True
  | Call.InitDBConfig _ :: cs => clockFrom t cs
  | Call.Status _ now :: cs => t ≤ now ∧ clockFrom now cs

/-- The clock reading after the calls of a list, starting from `t`. -/
def clockEnd {M ε : Type} (t : Time) : List (Call M ε) → Time
  | [] => t
  | Call.InitDBConfig _ :: cs => clockEnd t cs
  | Call.Status _ now :: cs => clockEnd now cs

/-- The relation between the cache, the clock and the history that every run
keeps, for a clock reading `t` later than the zero instant: `timeRecorded`
lies between the zero instant and `t`, and it is the zero instant exactly
when no call has made a real observation. -/
def timeInv {M : Type} (t : Time) (g : Ghost M) : Prop :=
  0 < t ∧ 0 ≤ g.world.p.timeRecorded ∧ g.world.p.timeRecorded ≤ t
    ∧ (g.world.p.timeRecorded = 0 ↔ g.observations = 0)

/-- The relation between the cache, the gauge and the history that every run
keeps: cached lag and gauge are what the most recent real observation, of a
seconds count `s`, stored (`time.Duration(s) * time.Second` and
`int64(lag.Seconds())`), and zero before the first one. -/
def valueInv {M : Type} (g : Ghost M) : Prop :=
  match g.lastSeconds with
  | none => g.world.replicationLagSeconds = 0 ∧ g.world.p.lag = 0
  | some s =>
    g.world.replicationLagSeconds
        = int64OfFloat (Seconds (Duration.mul (Duration.ofUint s) Second))
      ∧ g.world.p.lag = Duration.mul (Duration.ofUint s) Second

/-! ## Facts about the runtime model -/

theorem wrap64_of_inInt64 {x : Int} (h : inInt64 x) : wrap64 x = x := by
  unfold inInt64 minDuration maxDuration at h
  unfold wrap64
  omega

theorem inInt64_wrap64 (x : Int) : inInt64 (wrap64 x) := by
  unfold inInt64 minDuration maxDuration wrap64
  omega

theorem roundHalfEven_intCast (k : Int) : roundHalfEven (k : ℚ) = k := by
  unfold roundHalfEven
  simp

/-- A binary64 value represents every integer of magnitude below `2⁵³`
exactly. -/
theorem roundFloat64_intCast {n : Int} (h : |n| < 2 ^ 53) : roundFloat64 (n : ℚ) = n := by
  unfold roundFloat64
  by_cases h0 : (n : ℚ) = 0
  · simp [h0]
  · rw [if_neg h0]
    have hpos : (0 : ℚ) < |(n : ℚ)| := abs_pos.mpr h0
    have hlo : ((2 : ℕ) : ℚ) ^ Int.log 2 |(n : ℚ)| ≤ |(n : ℚ)| :=
      Int.zpow_log_le_self (by norm_num) hpos
    have hhi : |(n : ℚ)| < ((2 : ℕ) : ℚ) ^ (53 : Int) := by
      have : ((|n| : Int) : ℚ) < ((2 ^ 53 : Int) : ℚ) := by exact_mod_cast h
      rw [Int.cast_abs] at this
      have h2 : ((2 ^ 53 : Int) : ℚ) = ((2 : ℕ) : ℚ) ^ (53 : Int) := by norm_num
      rw [h2] at this
      exact this
    have hlt : Int.log 2 |(n : ℚ)| < 53 := by
      have := lt_of_le_of_lt hlo hhi
      exact (zpow_lt_zpow_iff_right₀ (by norm_num : (1 : ℚ) < ((2 : ℕ) : ℚ))).mp this
    obtain ⟨k, hk⟩ : ∃ k : ℕ, 52 - Int.log 2 |(n : ℚ)| = (k : Int) :=
      ⟨(52 - Int.log 2 |(n : ℚ)|).toNat, by omega⟩
    have hulp : (2 : ℚ) ^ (Int.log 2 |(n : ℚ)| - 52) = ((2 : ℚ) ^ k)⁻¹ := by
      have : Int.log 2 |(n : ℚ)| - 52 = -(k : Int) := by omega
      rw [this, zpow_neg, zpow_natCast]
    simp only [hulp]
    have hdiv : (n : ℚ) / ((2 : ℚ) ^ k)⁻¹ = ((n * 2 ^ k : Int) : ℚ) := by
      push_cast
      rw [div_inv_eq_mul]
    rw [hdiv, roundHalfEven_intCast]
    push_cast
    field_simp

theorem Seconds_whole {n : Int} (h : |n| < 2 ^ 53) : Seconds (n * Second) = n := by
  have hs : Int.tdiv (n * Second) Second = n := by
    unfold Second; exact Int.mul_tdiv_cancel _ (by norm_num)
  have hm : Int.tmod (n * Second) Second = 0 := by
    unfold Second; exact Int.mul_tmod_left _ _
  unfold Seconds
  simp only [hs, hm, float64OfInt]
  have h0 : roundFloat64 ((0 : Int) : ℚ) = 0 := by unfold roundFloat64; simp
  rw [h0, zero_div]
  have h00 : roundFloat64 0 = 0 := by unfold roundFloat64; simp
  rw [h00, add_zero, roundFloat64_intCast h, roundFloat64_intCast h]

theorem int64OfFloat_intCast (n : Int) : int64OfFloat (n : ℚ) = n := by
  unfold int64OfFloat
  split <;> simp

/-- The rounding of a value whose binary exponent is known. -/
theorem roundFloat64_of_exponent {q : ℚ} (e : Int) (h1 : (2 : ℚ) ^ e ≤ |q|)
    (h2 : |q| < (2 : ℚ) ^ (e + 1)) :
    roundFloat64 q = (roundHalfEven (q / 2 ^ (e - 52)) : ℚ) * 2 ^ (e - 52) := by
  have hpos : (0 : ℚ) < |q| := lt_of_lt_of_le (zpow_pos (by norm_num) e) h1
  have hq : q ≠ 0 := abs_pos.mp hpos
  have hlog : Int.log 2 |q| = e := by
    have a1 : e ≤ Int.log 2 |q| :=
      (Int.zpow_le_iff_le_log (by norm_num) hpos).mp (by exact_mod_cast h1)
    have a2 : Int.log 2 |q| < e + 1 :=
      (Int.lt_zpow_iff_log_lt (by norm_num) hpos).mp (by exact_mod_cast h2)
    omega
  unfold roundFloat64
  rw [if_neg hq]
  simp only [hlog]

/-- A value less than half above an integer rounds down to it. -/
theorem roundHalfEven_of_lt {q : ℚ} (z : Int) (h1 : (z : ℚ) ≤ q) (h2 : q - z < 1 / 2) :
    roundHalfEven q = z := by
  have hf : ⌊q⌋ = z := by
    rw [Int.floor_eq_iff]
    constructor
    · exact h1
    · linarith
  unfold roundHalfEven
  simp only [hf]
  rw [if_pos h2]

/-- A value more than half above an integer rounds up from it. -/
theorem roundHalfEven_of_gt {q : ℚ} (z : Int) (h1 : 1 / 2 < q - z) (h2 : q < z + 1) :
    roundHalfEven q = z + 1 := by
  have hf : ⌊q⌋ = z := by
    rw [Int.floor_eq_iff]
    constructor
    · linarith
    · exact h2
  unfold roundHalfEven
  simp only [hf]
  rw [if_neg (by linarith), if_pos h1]

/-- The whole seconds, as `int64(d.Seconds())` computes them, of the
duration that a seconds count of 9223372037 wraps around to. -/
theorem gauge_of_wrapped_lag :
    int64OfFloat (Seconds (-9223372036709551616)) = -9223372036 := by
  have hs : Int.tdiv (-9223372036709551616) Second = -9223372036 := by decide
  have hn : Int.tmod (-9223372036709551616) Second = -709551616 := by decide
  have hx : roundFloat64 ((-709551616 : ℚ) / 1000000000)
      = (-6391072786835467 : ℚ) / 9007199254740992 := by
    rw [roundFloat64_of_exponent (-1) (by rw [abs_of_neg (by norm_num)]; norm_num)
      (by rw [abs_of_neg (by norm_num)]; norm_num)]
    rw [roundHalfEven_of_lt (-6391072786835467) (by norm_num) (by norm_num)]
    norm_num
  have hy : roundFloat64 ((-9223372036 : ℚ) + (-6391072786835467 : ℚ) / 9007199254740992)
      = (-4835703278382377 : ℚ) / 524288 := by
    rw [roundFloat64_of_exponent 33 (by rw [abs_of_neg (by norm_num)]; norm_num)
      (by rw [abs_of_neg (by norm_num)]; norm_num)]
    rw [roundHalfEven_of_gt (-4835703278382378) (by norm_num) (by norm_num)]
    norm_num
  unfold Seconds
  simp only [hs, hn, float64OfInt]
  rw [roundFloat64_intCast (by norm_num), roundFloat64_intCast (by norm_num)]
  have c1 : ((-709551616 : Int) : ℚ) = (-709551616 : ℚ) := by norm_num
  have c2 : ((-9223372036 : Int) : ℚ) = (-9223372036 : ℚ) := by norm_num
  rw [c1, c2, hx, hy]
  unfold int64OfFloat
  rw [if_neg (by norm_num)]
  rw [Int.ceil_eq_iff]
  constructor <;> norm_num

/-- A seconds count whose product with `Second` fits is converted
exactly. -/
theorem lag_of_fits {s : Nat} (h : (s : Int) * Second ≤ maxDuration) :
    Duration.mul (Duration.ofUint s) Second = (s : Int) * Second := by
  unfold Second maxDuration at h
  have h1 : wrap64 (s : Int) = s := by unfold wrap64; omega
  unfold Duration.mul Duration.ofUint
  rw [h1]
  unfold wrap64 Second
  omega

/-- The gauge value computed from an exactly converted seconds count is
that count. -/
theorem gauge_of_fits {s : Nat} (h : (s : Int) * Second ≤ maxDuration) :
    int64OfFloat (Seconds ((s : Int) * Second)) = s := by
  unfold Second maxDuration at h
  have hb : |(s : Int)| < 2 ^ 53 := by
    rw [abs_of_nonneg (by omega)]
    omega
  rw [Seconds_whole hb, int64OfFloat_intCast]

/-- Every unsigned 32-bit seconds count is converted exactly. -/
theorem fits_of_lt {s : Nat} (h : s < 2 ^ 32) : (s : Int) * Second ≤ maxDuration := by
  unfold Second maxDuration
  omega

/-- The fresh-observation branch of `Status`, for any seconds count. -/
theorem Status_running {M ε : Type} (query : Query M ε) (now : Time) (w : World M)
    {m : M} {st : ReplicationStatus} (hm : w.p.mysqld = some m) (hq : query m = .ok st)
    (hrun : st.ReplicationRunning = true) (hknown : st.ReplicationLagUnknown = false) :
    Status query now w = some
      { world := { p := { mysqld := some m,
                          lag := Duration.mul (Duration.ofUint st.ReplicationLagSeconds) Second,
                          timeRecorded := now },
                   replicationLagSeconds := int64OfFloat (Seconds
                     (Duration.mul (Duration.ofUint st.ReplicationLagSeconds) Second)) },
        lag := Duration.mul (Duration.ofUint st.ReplicationLagSeconds) Second,
        err := none } := by
  simp only [Status, hm, hq, hrun, hknown, Gauge.Set]
  simp

/-- The fresh-observation branch of `Status`, in closed form. -/
theorem Status_observe {M ε : Type} (query : Query M ε) (now : Time) (w : World M)
    {m : M} {st : ReplicationStatus} (hm : w.p.mysqld = some m) (hq : query m = .ok st)
    (hrun : st.ReplicationRunning = true) (hknown : st.ReplicationLagUnknown = false)
    (hfit : st.fits) :
    Status query now w = some
      { world := { p := { mysqld := some m, lag := (st.ReplicationLagSeconds : Int) * Second,
                          timeRecorded := now },
                   replicationLagSeconds := st.ReplicationLagSeconds },
        lag := (st.ReplicationLagSeconds : Int) * Second, err := none } := by
  unfold ReplicationStatus.fits at hfit
  simp only [Status, hm, hq, hrun, hknown, Gauge.Set, lag_of_fits hfit,
    gauge_of_fits hfit]
  simp

/-- The extrapolation and unavailable branches of `Status`, in closed form. -/
theorem Status_unknown {M ε : Type} (query : Query M ε) (now : Time) (w : World M)
    {m : M} {st : ReplicationStatus} (hm : w.p.mysqld = some m) (hq : query m = .ok st)
    (hdown : st.ReplicationRunning = false ∨ st.ReplicationLagUnknown = true) :
    Status query now w = some
      (if w.p.timeRecorded = 0 then
        { world := w, lag := 0,
          err := some (Error.vterror Code.UNAVAILABLE "replication is not running") }
      else { world := w, lag := Duration.add (Since now w.p.timeRecorded) w.p.lag, err := none }) := by
  have hc : (!st.ReplicationRunning || st.ReplicationLagUnknown) = true := by
    rcases hdown with h | h <;> simp [h]
  simp only [Status, hm, hq, hc, Time.IsZero, vterrors.Errorf]
  by_cases h0 : w.p.timeRecorded = 0 <;> simp [h0]

/-- The source-failure branch of `Status`, in closed form. -/
theorem Status_failure {M ε : Type} (query : Query M ε) (now : Time) (w : World M)
    {m : M} {e : ε} (hm : w.p.mysqld = some m) (hq : query m = .error e) :
    Status query now w = some { world := w, lag := 0, err := some (Error.source e) } := by
  simp only [Status, hm, hq]

/-- In the range where neither the subtraction nor the addition leaves the
signed 64-bit range, the extrapolated value is the exact integer. -/
theorem Duration_add_Since_exact {now t0 L : Int} (h1 : inInt64 (now - t0))
    (h2 : inInt64 (now - t0 + L)) : Duration.add (Since now t0) L = now - t0 + L := by
  unfold inInt64 minDuration maxDuration at h1 h2
  have e1 : Since now t0 = now - t0 := by
    unfold Since Time.Sub minDuration maxDuration
    have a1 : ¬ ((now - t0 : Int) < -(2 ^ 63)) := by omega
    have a2 : ¬ ((2 ^ 63 - 1 : Int) < now - t0) := by omega
    rw [if_neg a1, if_neg a2]
  rw [e1]
  unfold Duration.add wrap64
  omega

/-! ## The contract of `Status`, branch by branch -/

/-- C1, as stated, fails. The daemon reports a lag of 9223372037 seconds,
the smallest count whose nanoseconds exceed the largest `time.Duration`:
`time.Duration(s) * time.Second` wraps around, and `Status` returns and
stores -9223372036709551616 ns with a nil error, not `s * Second`, and sets
the gauge to -9223372036, not to `s`. -/
theorem C1_counterexample :
    ∃ o : Outcome Unit Nat,
      Status (fun _ => .ok ⟨true, false, 9223372037⟩ : Query Unit Nat) 100
        (InitDBConfig (World.fresh Unit) (some ())) = some o
      ∧ o.err = none
      ∧ o.lag = -9223372036709551616
      ∧ o.world.p.lag = -9223372036709551616
      ∧ o.world.p.timeRecorded = 100
      ∧ o.world.replicationLagSeconds = -9223372036
      ∧ ¬ (o.lag = ((9223372037 : Nat) : Int) * Second)
      ∧ ¬ (o.world.replicationLagSeconds = ((9223372037 : Nat) : Int)) := by
  have hlag : Duration.mul (Duration.ofUint 9223372037) Second = -9223372036709551616 := by
    decide
  have hgauge : int64OfFloat (Seconds (Duration.mul (Duration.ofUint 9223372037) Second))
      = -9223372036 := by
    rw [hlag]
    exact gauge_of_wrapped_lag
  have h := Status_running (fun _ => .ok ⟨true, false, 9223372037⟩ : Query Unit Nat) 100
    (InitDBConfig (World.fresh Unit) (some ())) (m := ()) rfl rfl rfl rfl
  rw [hgauge, hlag] at h
  exact ⟨_, h, rfl, rfl, rfl, rfl, rfl, by decide, by decide⟩

/-- C1, amended. Fresh observation: when the bound daemon's query succeeds
and reports replication running with a known lag of `s` seconds, `Status`
returns `(time.Duration(s) * time.Second, nil)` in signed 64-bit arithmetic,
stores that value in `lag` and the clock reading in `timeRecorded`, and sets
the gauge to `int64(lag.Seconds())`. The outcome is the same from every other
state `w2` with the same daemon bound, so it does not depend on the cache or
the gauge before the call. When `s * Second` does not exceed the largest
`time.Duration` the returned and stored lag is exactly `s * Second` and the
gauge is `s`; in particular a second observation of such an `s2` right after
the first returns `s2 * Second` and leaves the gauge at `s2`. -/
theorem C1_fresh_observation {M ε : Type} (query : Query M ε) (now : Time) (w w2 : World M)
    (m : M) (st : ReplicationStatus) (hm : w.p.mysqld = some m) (hm2 : w2.p.mysqld = some m)
    (hq : query m = .ok st) (hrun : st.ReplicationRunning = true)
    (hknown : st.ReplicationLagUnknown = false) :
    Status query now w = some
      { world := { p := { mysqld := some m,
                          lag := Duration.mul (Duration.ofUint st.ReplicationLagSeconds) Second,
                          timeRecorded := now },
                   replicationLagSeconds := int64OfFloat (Seconds
                     (Duration.mul (Duration.ofUint st.ReplicationLagSeconds) Second)) },
        lag := Duration.mul (Duration.ofUint st.ReplicationLagSeconds) Second,
        err := none }
    ∧ Status query now w2 = Status query now w
    ∧ ((st.ReplicationLagSeconds : Int) * Second ≤ maxDuration →
        Status query now w = some
          { world := { p := { mysqld := some m,
                              lag := (st.ReplicationLagSeconds : Int) * Second,
                              timeRecorded := now },
                       replicationLagSeconds := st.ReplicationLagSeconds },
            lag := (st.ReplicationLagSeconds : Int) * Second, err := none })
    ∧ ∀ (query2 : Query M ε) (now2 : Time) (st2 : ReplicationStatus),
        query2 m = .ok st2 → st2.ReplicationRunning = true →
        st2.ReplicationLagUnknown = false →
        (st2.ReplicationLagSeconds : Int) * Second ≤ maxDuration →
        (Status query now w).bind (fun o => Status query2 now2 o.world) = some
          { world := { p := { mysqld := some m,
                              lag := (st2.ReplicationLagSeconds : Int) * Second,
                              timeRecorded := now2 },
                       replicationLagSeconds := st2.ReplicationLagSeconds },
            lag := (st2.ReplicationLagSeconds : Int) * Second, err := none } := by
  refine ⟨Status_running query now w hm hq hrun hknown, ?_, ?_, ?_⟩
  · rw [Status_running query now w hm hq hrun hknown,
      Status_running query now w2 hm2 hq hrun hknown]
  · intro hfit
    exact Status_observe query now w hm hq hrun hknown hfit
  · intro query2 now2 st2 hq2 hrun2 hknown2 hfit2
    rw [Status_running query now w hm hq hrun hknown]
    exact Status_observe query2 now2
      { p := { mysqld := some m,
               lag := Duration.mul (Duration.ofUint st.ReplicationLagSeconds) Second,
               timeRecorded := now },
        replicationLagSeconds := int64OfFloat (Seconds
          (Duration.mul (Duration.ofUint st.ReplicationLagSeconds) Second)) }
      rfl hq2 hrun2 hknown2 hfit2

/-- A witness of C1: a tracker that last saw 9 s at instant 40 observes 5 s
at instant 100. -/
theorem C1_fresh_observation_witness :
    Status (fun _ => .ok ⟨true, false, 5⟩ : Query Unit Nat) 100
        { p := { mysqld := some (), lag := 9000000000, timeRecorded := 40 },
          replicationLagSeconds := 9 } = some
      { world := { p := { mysqld := some (), lag := 5000000000, timeRecorded := 100 },
                   replicationLagSeconds := 5 },
        lag := 5000000000, err := none } :=
  (C1_fresh_observation (fun _ => .ok ⟨true, false, 5⟩ : Query Unit Nat) 100
    { p := { mysqld := some (), lag := 9000000000, timeRecorded := 40 },
      replicationLagSeconds := 9 }
    (World.fresh Unit |> fun w => InitDBConfig w (some ())) () ⟨true, false, 5⟩
    rfl rfl rfl rfl rfl).2.2.1 (by decide)

/-- C2. Extrapolation: when the bound daemon's query succeeds and reports
replication not running or the lag unknown, and `timeRecorded` is set,
`Status` returns `(now.Sub(timeRecorded) + lag, nil)` in `time.Duration`
arithmetic and leaves the poller and the gauge as they were; whenever
`now - timeRecorded` and `(now - timeRecorded) + lag` fit the signed 64-bit
range the returned value is that exact integer. -/
theorem C2_extrapolation {M ε : Type} (query : Query M ε) (now : Time) (w : World M)
    (m : M) (st : ReplicationStatus) (hm : w.p.mysqld = some m) (hq : query m = .ok st)
    (hdown : st.ReplicationRunning = false ∨ st.ReplicationLagUnknown = true)
    (hset : w.p.timeRecorded.IsZero = false) :
    Status query now w = some
      { world := w, lag := Duration.add (Time.Sub now w.p.timeRecorded) w.p.lag, err := none }
    ∧ (inInt64 (now - w.p.timeRecorded) → inInt64 (now - w.p.timeRecorded + w.p.lag) →
        Status query now w = some
          { world := w, lag := now - w.p.timeRecorded + w.p.lag, err := none }) := by
  have h0 : w.p.timeRecorded ≠ 0 := by simpa [Time.IsZero] using hset
  have h := Status_unknown query now w hm hq hdown
  rw [if_neg h0] at h
  refine ⟨h, fun h1 h2 => ?_⟩
  rw [h, Duration_add_Since_exact h1 h2]

/-- A witness of C2: 5 s recorded at instant 7, daemon stopped ten seconds
later. -/
theorem C2_extrapolation_witness :
    Status (fun _ => .ok ⟨false, false, 0⟩ : Query Unit Nat) 10000000007
        { p := { mysqld := some (), lag := 5000000000, timeRecorded := 7 },
          replicationLagSeconds := 5 } = some
      { world := { p := { mysqld := some (), lag := 5000000000, timeRecorded := 7 },
                   replicationLagSeconds := 5 },
        lag := 15000000000, err := none } :=
  (C2_extrapolation (fun _ => .ok ⟨false, false, 0⟩ : Query Unit Nat) 10000000007
    { p := { mysqld := some (), lag := 5000000000, timeRecorded := 7 },
      replicationLagSeconds := 5 } () ⟨false, false, 0⟩ rfl rfl (Or.inl rfl) rfl).2
    (by decide) (by decide)

/-- C3. Unavailable: when the bound daemon's query succeeds and reports
replication not running or the lag unknown, and `timeRecorded` is unset,
`Status` returns a zero duration with the error of code `UNAVAILABLE` and
message "replication is not running", leaves the state (so the unset cache)
as it was, and the returned error is not nil. -/
theorem C3_unavailable {M ε : Type} (query : Query M ε) (now : Time) (w : World M)
    (m : M) (st : ReplicationStatus) (hm : w.p.mysqld = some m) (hq : query m = .ok st)
    (hdown : st.ReplicationRunning = false ∨ st.ReplicationLagUnknown = true)
    (hunset : w.p.timeRecorded.IsZero = true) :
    ∃ o : Outcome M ε, Status query now w = some o
      ∧ o.lag = 0
      ∧ o.err = some (Error.vterror Code.UNAVAILABLE "replication is not running")
      ∧ o.world = w
      ∧ o.world.p.timeRecorded.IsZero = true
      ∧ o.err ≠ none := by
  have h0 : w.p.timeRecorded = 0 := by simpa [Time.IsZero] using hunset
  have h := Status_unknown query now w hm hq hdown
  rw [if_pos h0] at h
  exact ⟨_, h, rfl, rfl, rfl, hunset, by simp⟩

/-- A witness of C3: the first call on a tracker whose daemon reports the lag
unknown while replication runs. -/
theorem C3_unavailable_witness :
    ∃ o : Outcome Unit Nat,
      Status (fun _ => .ok ⟨true, true, 3⟩ : Query Unit Nat) 100
        (InitDBConfig (World.fresh Unit) (some ())) = some o
      ∧ o.lag = 0
      ∧ o.err = some (Error.vterror Code.UNAVAILABLE "replication is not running")
      ∧ o.world = InitDBConfig (World.fresh Unit) (some ())
      ∧ o.world.p.timeRecorded.IsZero = true
      ∧ o.err ≠ none :=
  C3_unavailable (fun _ => .ok ⟨true, true, 3⟩ : Query Unit Nat) 100
    (InitDBConfig (World.fresh Unit) (some ())) () ⟨true, true, 3⟩ rfl rfl (Or.inr rfl) rfl

/-- C4. Source failure: when the bound daemon's query fails with `e`,
`Status` returns `(0, e)` and leaves the poller and the gauge as they were.
Hence whatever is polled next gives the result it would have given without
the failing call; in particular a following poll at `t` in which the daemon
reports replication not running or the lag unknown, on a cache that is set,
returns `t.Sub(timeRecorded) + lag`. -/
theorem C4_source_failure {M ε : Type} (query : Query M ε) (now : Time) (w : World M)
    (m : M) (e : ε) (hm : w.p.mysqld = some m) (hq : query m = .error e) :
    Status query now w = some { world := w, lag := 0, err := some (Error.source e) }
    ∧ (∀ (query2 : Query M ε) (t : Time),
        (Status query now w).bind (fun o => Status query2 t o.world) = Status query2 t w)
    ∧ (∀ (query2 : Query M ε) (t : Time) (st : ReplicationStatus),
        query2 m = .ok st →
        (st.ReplicationRunning = false ∨ st.ReplicationLagUnknown = true) →
        w.p.timeRecorded.IsZero = false →
        (Status query now w).bind (fun o => Status query2 t o.world) = some
          { world := w, lag := Duration.add (Time.Sub t w.p.timeRecorded) w.p.lag,
            err := none }) := by
  have h := Status_failure query now w hm hq
  refine ⟨h, fun query2 t => by rw [h]; rfl, fun query2 t st hq2 hdown hset => ?_⟩
  have h0 : w.p.timeRecorded ≠ 0 := by simpa [Time.IsZero] using hset
  have h2 := Status_unknown query2 t w hm hq2 hdown
  rw [if_neg h0] at h2
  rw [h]
  exact h2

/-- A witness of C4: a failing query between an observation of 5 s at
instant 7 and a poll ten seconds after it. -/
theorem C4_source_failure_witness :
    (Status (fun _ => .error 42 : Query Unit Nat) 9
        { p := { mysqld := some (), lag := 5000000000, timeRecorded := 7 },
          replicationLagSeconds := 5 }).bind
      (fun o => Status (fun _ => .ok ⟨false, false, 0⟩ : Query Unit Nat) 10000000007 o.world)
    = some
      { world := { p := { mysqld := some (), lag := 5000000000, timeRecorded := 7 },
                   replicationLagSeconds := 5 },
        lag := Duration.add (Time.Sub 10000000007 7) 5000000000, err := none } :=
  (C4_source_failure (fun _ => .error 42 : Query Unit Nat) 9
    { p := { mysqld := some (), lag := 5000000000, timeRecorded := 7 },
      replicationLagSeconds := 5 } () 42 rfl rfl).2.2
    (fun _ => .ok ⟨false, false, 0⟩) 10000000007 ⟨false, false, 0⟩ rfl (Or.inl rfl) rfl

/-- C5. With a daemon bound, `Status` returns, and it returns an error
exactly when the query failed or the query succeeded with replication not
running or the lag unknown while `timeRecorded` was unset. The error built by
the tracker, of code `UNAVAILABLE`, is returned exactly in the second case; a
failed query returns the daemon's own error; in every other case the error is
nil. -/
theorem C5_error_iff {M ε : Type} (query : Query M ε) (now : Time) (w : World M)
    (m : M) (hm : w.p.mysqld = some m) :
    ∃ o : Outcome M ε, Status query now w = some o
      ∧ (o.err ≠ none ↔
          ((∃ e, query m = .error e) ∨
            (∃ st, query m = .ok st
              ∧ (st.ReplicationRunning = false ∨ st.ReplicationLagUnknown = true)
              ∧ w.p.timeRecorded.IsZero = true)))
      ∧ ((∃ msg, o.err = some (Error.vterror Code.UNAVAILABLE msg)) ↔
          (∃ st, query m = .ok st
            ∧ (st.ReplicationRunning = false ∨ st.ReplicationLagUnknown = true)
            ∧ w.p.timeRecorded.IsZero = true))
      ∧ (∀ e, query m = .error e → o.err = some (Error.source e)) := by
  cases hq : query m with
  | error e =>
    refine ⟨_, Status_failure query now w hm hq, ?_, ?_, ?_⟩
    · simp
    · simp
    · intro e2 h2
      cases h2
      rfl
  | ok st =>
    by_cases hdown : st.ReplicationRunning = false ∨ st.ReplicationLagUnknown = true
    · have h := Status_unknown query now w hm hq hdown
      by_cases h0 : w.p.timeRecorded = 0
      · rw [if_pos h0] at h
        refine ⟨_, h, ?_, ?_, ?_⟩
        · simp [hdown, h0, Time.IsZero]
        · simp [hdown, h0, Time.IsZero]
        · intro e2 h2
          cases h2
      · rw [if_neg h0] at h
        refine ⟨_, h, ?_, ?_, ?_⟩
        · simp [h0, Time.IsZero]
        · simp [h0, Time.IsZero]
        · intro e2 h2
          cases h2
    · have hrun : st.ReplicationRunning = true := by
        cases hr : st.ReplicationRunning
        · exact absurd (Or.inl hr) hdown
        · rfl
      have hknown : st.ReplicationLagUnknown = false := by
        cases hk : st.ReplicationLagUnknown
        · rfl
        · exact absurd (Or.inr hk) hdown
      refine ⟨_, Status_running query now w hm hq hrun hknown, ?_, ?_, ?_⟩
      · simp [hrun, hknown]
      · simp [hrun, hknown]
      · intro e2 h2
        cases h2

/-- A witness of C5: a failing query returns the daemon's error. -/
theorem C5_error_iff_witness :
    ∃ o : Outcome Unit Nat,
      Status (fun _ => .error 42 : Query Unit Nat) 9 (InitDBConfig (World.fresh Unit) (some ()))
        = some o ∧ o.err = some (Error.source 42) := by
  obtain ⟨o, h1, _, _, h4⟩ := C5_error_iff (fun _ => .error 42 : Query Unit Nat) 9
    (InitDBConfig (World.fresh Unit) (some ())) () rfl
  exact ⟨o, h1, h4 42 rfl⟩

/-! ## Runs of calls -/

/-- What one call of `Status` does to the state, by whether it observes. -/
theorem step_Status_cases {M ε : Type} (query : Query M ε) (now : Time) (w w1 : World M)
    (h : step w (Call.Status query now) = some w1) :
    ((Call.Status query now).observation w = none ∧ w1 = w) ∨
    (∃ m st, w.p.mysqld = some m ∧ query m = .ok st ∧ st.ReplicationRunning = true
      ∧ st.ReplicationLagUnknown = false
      ∧ (Call.Status query now).observation w = some st.ReplicationLagSeconds
      ∧ w1 = { p := { mysqld := some m,
                      lag := Duration.mul (Duration.ofUint st.ReplicationLagSeconds) Second,
                      timeRecorded := now },
               replicationLagSeconds := int64OfFloat (Seconds
                 (Duration.mul (Duration.ofUint st.ReplicationLagSeconds) Second)) }) := by
  cases hm : w.p.mysqld with
  | none => simp [step, Status, hm] at h
  | some m =>
    cases hq : query m with
    | error e =>
      left
      rw [step, Status_failure query now w hm hq] at h
      simp only [Option.map_some', Option.some.injEq] at h
      exact ⟨by simp [Call.observation, hm, hq], h.symm⟩
    | ok st =>
      by_cases hdown : st.ReplicationRunning = false ∨ st.ReplicationLagUnknown = true
      · left
        have hc : (!st.ReplicationRunning || st.ReplicationLagUnknown) = true := by
          rcases hdown with h1 | h1 <;> simp [h1]
        rw [step, Status_unknown query now w hm hq hdown] at h
        refine ⟨by simp [Call.observation, hm, hq, hc], ?_⟩
        by_cases h0 : w.p.timeRecorded = 0
        · rw [if_pos h0] at h
          simp only [Option.map_some', Option.some.injEq] at h
          exact h.symm
        · rw [if_neg h0] at h
          simp only [Option.map_some', Option.some.injEq] at h
          exact h.symm
      · right
        have hrun : st.ReplicationRunning = true := by
          cases hr : st.ReplicationRunning
          · exact absurd (Or.inl hr) hdown
          · rfl
        have hknown : st.ReplicationLagUnknown = false := by
          cases hk : st.ReplicationLagUnknown
          · rfl
          · exact absurd (Or.inr hk) hdown
        rw [step, Status_running query now w hm hq hrun hknown] at h
        simp only [Option.map_some', Option.some.injEq] at h
        exact ⟨m, st, rfl, hq, hrun, hknown, by simp [Call.observation, hm, hq, hrun, hknown],
          h.symm⟩


theorem step_InitDBConfig {M ε : Type} (w : World M) (mysqld : Option M) :
    step w (Call.InitDBConfig mysqld : Call M ε) = some (InitDBConfig w mysqld) := rfl

/-- A run that returns has run its first call and then the rest. -/
theorem run_cons_some {M ε : Type} (g g2 : Ghost M) (c : Call M ε) (cs : List (Call M ε))
    (h : run g (c :: cs) = some g2) :
    ∃ w1, step g.world c = some w1 ∧
      ((c.observation g.world = none
          ∧ run { world := w1, lastSeconds := g.lastSeconds,
                  observations := g.observations } cs = some g2)
        ∨ (∃ s, c.observation g.world = some s
          ∧ run { world := w1, lastSeconds := some s,
                  observations := g.observations + 1 } cs = some g2)) := by
  unfold run at h
  cases hs : step g.world c with
  | none => simp [hs] at h
  | some w1 =>
    refine ⟨w1, rfl, ?_⟩
    cases ho : c.observation g.world with
    | none => left; simpa [hs, ho] using h
    | some s => right; exact ⟨s, rfl, by simpa [hs, ho] using h⟩

theorem clockFrom_append {M ε : Type} (cs cs2 : List (Call M ε)) :
    ∀ t : Time, clockFrom t (cs ++ cs2) ↔ clockFrom t cs ∧ clockFrom (clockEnd t cs) cs2 := by
  induction cs with
  | nil => intro t; simp [clockFrom, clockEnd]
  | cons c cs ih =>
    intro t
    cases c with
    | InitDBConfig mysqld => simpa [clockFrom, clockEnd] using ih t
    | Status query now =>
      show (t ≤ now ∧ clockFrom now (cs ++ cs2)) ↔
        (t ≤ now ∧ clockFrom now cs) ∧ clockFrom (clockEnd now cs) cs2
      rw [ih now]
      tauto

/-- Every run keeps `timeInv`, and never moves `timeRecorded` back. -/
theorem run_timeInv {M ε : Type} (cs : List (Call M ε)) :
    ∀ (t : Time) (g g2 : Ghost M), clockFrom t cs → timeInv t g → run g cs = some g2 →
      timeInv (clockEnd t cs) g2 ∧ g.world.p.timeRecorded ≤ g2.world.p.timeRecorded := by
  induction cs with
  | nil =>
    intro t g g2 _ hinv hrun
    simp only [run, Option.some.injEq] at hrun
    subst hrun
    exact ⟨hinv, le_refl _⟩
  | cons c cs ih =>
    intro t g g2 hclock hinv hrun
    obtain ⟨w1, hstep, hrest⟩ := run_cons_some g g2 c cs hrun
    obtain ⟨ht, h0, hle, hiff⟩ := hinv
    cases c with
    | InitDBConfig mysqld =>
      rw [step_InitDBConfig] at hstep
      simp only [Option.some.injEq] at hstep
      subst hstep
      rcases hrest with ⟨_, hr⟩ | ⟨s, ho, _⟩
      · exact ih t { world := InitDBConfig g.world mysqld, lastSeconds := g.lastSeconds,
                     observations := g.observations } g2 hclock ⟨ht, h0, hle, hiff⟩ hr
      · simp [Call.observation] at ho
    | Status query now =>
      obtain ⟨htn, hclock2⟩ := hclock
      have hnow : (0 : Int) < now := lt_of_lt_of_le ht htn
      rcases step_Status_cases query now g.world w1 hstep with
        ⟨hnone, hw⟩ | ⟨m, st, _, _, _, _, hsome, hw⟩
      · subst hw
        rcases hrest with ⟨_, hr⟩ | ⟨s, ho, _⟩
        · refine ih now _ g2 hclock2 ?_ hr
          exact ⟨hnow, h0, le_trans hle htn, hiff⟩
        · rw [hnone] at ho; cases ho
      · rcases hrest with ⟨ho, _⟩ | ⟨s, _, hr⟩
        · rw [hsome] at ho; cases ho
        · have hinv2 : timeInv now
              ({ world := w1, lastSeconds := some s,
                 observations := g.observations + 1 } : Ghost M) := by
            subst hw
            refine ⟨hnow, le_of_lt hnow, le_refl _, ?_⟩
            constructor
            · intro h; exact absurd h (ne_of_gt hnow)
            · intro h; exact absurd h (Nat.succ_ne_zero _)
          obtain ⟨r1, r2⟩ := ih now _ g2 hclock2 hinv2 hr
          refine ⟨r1, le_trans ?_ r2⟩
          subst hw
          exact le_trans hle htn

/-- Every run keeps `valueInv`. -/
theorem run_valueInv {M ε : Type} (cs : List (Call M ε)) :
    ∀ (g g2 : Ghost M), valueInv g → run g cs = some g2 → valueInv g2 := by
  induction cs with
  | nil =>
    intro g g2 hinv hrun
    simp only [run, Option.some.injEq] at hrun
    subst hrun
    exact hinv
  | cons c cs ih =>
    intro g g2 hinv hrun
    obtain ⟨w1, hstep, hrest⟩ := run_cons_some g g2 c cs hrun
    cases c with
    | InitDBConfig mysqld =>
      rw [step_InitDBConfig] at hstep
      simp only [Option.some.injEq] at hstep
      subst hstep
      rcases hrest with ⟨_, hr⟩ | ⟨s, ho, _⟩
      · refine ih _ g2 ?_ hr
        exact hinv
      · simp [Call.observation] at ho
    | Status query now =>
      rcases step_Status_cases query now g.world w1 hstep with
        ⟨hnone, hw⟩ | ⟨m, st, _, hq, _, _, hsome, hw⟩
      · subst hw
        rcases hrest with ⟨_, hr⟩ | ⟨s, ho, _⟩
        · refine ih _ g2 ?_ hr
          exact hinv
        · rw [hnone] at ho; cases ho
      · rcases hrest with ⟨ho, _⟩ | ⟨s, ho, hr⟩
        · rw [hsome] at ho; cases ho
        · rw [hsome] at ho
          simp only [Option.some.injEq] at ho
          subst hw
          subst ho
          refine ih _ g2 ?_ hr
          simp [valueInv]

theorem timeInv_fresh (M : Type) {t : Time} (ht : 0 < t) : timeInv t (Ghost.fresh M) :=
  ⟨ht, le_refl _, le_of_lt ht, by simp [Ghost.fresh, World.fresh]⟩

theorem valueInv_fresh (M : Type) : valueInv (Ghost.fresh M) := by
  simp [valueInv, Ghost.fresh, World.fresh]

/-- The first call of a run is `InitDBConfig`. -/
theorem run_InitDBConfig {M ε : Type} (g : Ghost M) (mysqld : Option M)
    (cs : List (Call M ε)) :
    run g (Call.InitDBConfig mysqld :: cs) =
      run { world := InitDBConfig g.world mysqld, lastSeconds := g.lastSeconds,
            observations := g.observations } cs := rfl

/-- The first call of a run is a `Status` that makes a real observation. -/
theorem run_observe {M ε : Type} (g : Ghost M) (query : Query M ε) (now : Time)
    (cs : List (Call M ε)) (m : M) (st : ReplicationStatus) (hm : g.world.p.mysqld = some m)
    (hq : query m = .ok st) (hrun : st.ReplicationRunning = true)
    (hknown : st.ReplicationLagUnknown = false) (hfit : st.fits) :
    run g (Call.Status query now :: cs) =
      run { world := { p := { mysqld := some m,
                              lag := (st.ReplicationLagSeconds : Int) * Second,
                              timeRecorded := now },
                       replicationLagSeconds := st.ReplicationLagSeconds },
            lastSeconds := some st.ReplicationLagSeconds,
            observations := g.observations + 1 } cs := by
  have hs : step g.world (Call.Status query now) = some
      { p := { mysqld := some m, lag := (st.ReplicationLagSeconds : Int) * Second,
               timeRecorded := now },
        replicationLagSeconds := st.ReplicationLagSeconds } := by
    rw [step, Status_observe query now g.world hm hq hrun hknown hfit]
    rfl
  have ho : (Call.Status query now).observation g.world = some st.ReplicationLagSeconds := by
    simp [Call.observation, hm, hq, hrun, hknown]
  rw [run]
  simp only [hs, ho]

/-- The first call of a run is a `Status` that makes a real observation, of
any seconds count. -/
theorem run_running {M ε : Type} (g : Ghost M) (query : Query M ε) (now : Time)
    (cs : List (Call M ε)) (m : M) (st : ReplicationStatus) (hm : g.world.p.mysqld = some m)
    (hq : query m = .ok st) (hrun : st.ReplicationRunning = true)
    (hknown : st.ReplicationLagUnknown = false) :
    run g (Call.Status query now :: cs) =
      run { world := { p := { mysqld := some m,
                              lag := Duration.mul (Duration.ofUint st.ReplicationLagSeconds)
                                Second,
                              timeRecorded := now },
                       replicationLagSeconds := int64OfFloat (Seconds
                         (Duration.mul (Duration.ofUint st.ReplicationLagSeconds) Second)) },
            lastSeconds := some st.ReplicationLagSeconds,
            observations := g.observations + 1 } cs := by
  have hs : step g.world (Call.Status query now) = some
      { p := { mysqld := some m,
               lag := Duration.mul (Duration.ofUint st.ReplicationLagSeconds) Second,
               timeRecorded := now },
        replicationLagSeconds := int64OfFloat (Seconds
          (Duration.mul (Duration.ofUint st.ReplicationLagSeconds) Second)) } := by
    rw [step, Status_running query now g.world hm hq hrun hknown]
    rfl
  have ho : (Call.Status query now).observation g.world = some st.ReplicationLagSeconds := by
    simp [Call.observation, hm, hq, hrun, hknown]
  rw [run]
  simp only [hs, ho]

/-- The first call of a run is a `Status` that extrapolates. -/
theorem run_extrapolate {M ε : Type} (g : Ghost M) (query : Query M ε) (now : Time)
    (cs : List (Call M ε)) (m : M) (st : ReplicationStatus) (hm : g.world.p.mysqld = some m)
    (hq : query m = .ok st)
    (hdown : st.ReplicationRunning = false ∨ st.ReplicationLagUnknown = true) :
    run g (Call.Status query now :: cs) = run g cs := by
  have hc : (!st.ReplicationRunning || st.ReplicationLagUnknown) = true := by
    rcases hdown with h | h <;> simp [h]
  have hs : step g.world (Call.Status query now) = some g.world := by
    rw [step, Status_unknown query now g.world hm hq hdown]
    by_cases h0 : g.world.p.timeRecorded = 0 <;> simp [h0]
  have ho : (Call.Status query now).observation g.world = none := by
    simp [Call.observation, hm, hq, hc]
  rw [run]
  simp only [hs, ho]

/-- C6, as stated, fails in its last part. The daemon reports a lag of
`2 ^ 55 + 5 = 36028797018963973` seconds: `time.Duration(s) * time.Second`
wraps around to five seconds (`2 ^ 55 * 10 ^ 9` is a multiple of `2 ^ 64`),
and the gauge is set to 5, not to the seconds count of this most recent real
observation. -/
theorem C6_counterexample :
    ∃ g : Ghost Unit,
      run (Ghost.fresh Unit)
        [Call.InitDBConfig (some ()),
         Call.Status (fun _ => .ok ⟨true, false, 36028797018963973⟩ : Query Unit Nat) 100]
        = some g
      ∧ g.lastSeconds = some 36028797018963973
      ∧ g.world.p.lag = 5000000000
      ∧ g.world.replicationLagSeconds = 5
      ∧ ¬ (g.world.replicationLagSeconds = ((36028797018963973 : Nat) : Int)) := by
  have hlag : Duration.mul (Duration.ofUint 36028797018963973) Second = (5 : Int) * Second := by
    decide
  have hgauge : int64OfFloat (Seconds
      (Duration.mul (Duration.ofUint 36028797018963973) Second)) = 5 := by
    rw [hlag, Seconds_whole (by norm_num), int64OfFloat_intCast]
  refine ⟨{ world := { p := { mysqld := some (), lag := 5000000000, timeRecorded := 100 },
                       replicationLagSeconds := 5 },
            lastSeconds := some 36028797018963973, observations := 1 }, ?_, rfl, rfl, rfl, ?_⟩
  · rw [run_InitDBConfig,
      run_running _ _ _ _ () ⟨true, false, 36028797018963973⟩ rfl rfl rfl rfl]
    rw [hgauge, hlag]
    rfl
  · decide

/-- C6, amended. The gauge is written only on real observations. For every
returning call of `Status`: if the gauge after the call differs from the
gauge before, the query succeeded and reported replication running with a
known lag; and when the query fails, or succeeds reporting replication not
running or the lag unknown (the unavailable and the extrapolated outcomes),
the gauge is unchanged. Hence after every run from the fresh tracker the
gauge holds `int64(lag.Seconds())` of the lag that the most recent real
observation stored, and its initial zero before the first one; that value is
the observation's seconds count `s` whenever `s * Second` does not exceed
the largest `time.Duration`. -/
theorem C6_gauge_only_on_observation (M ε : Type) :
    (∀ (query : Query M ε) (now : Time) (w : World M) (o : Outcome M ε),
      Status query now w = some o →
      o.world.replicationLagSeconds ≠ w.replicationLagSeconds →
      ∃ m st, w.p.mysqld = some m ∧ query m = .ok st ∧ st.ReplicationRunning = true
        ∧ st.ReplicationLagUnknown = false)
    ∧ (∀ (query : Query M ε) (now : Time) (w : World M) (o : Outcome M ε) (m : M),
      Status query now w = some o → w.p.mysqld = some m →
      ((∃ e, query m = .error e) ∨
        (∃ st, query m = .ok st
          ∧ (st.ReplicationRunning = false ∨ st.ReplicationLagUnknown = true))) →
      o.world.replicationLagSeconds = w.replicationLagSeconds)
    ∧ (∀ (cs : List (Call M ε)) (g : Ghost M),
      run (Ghost.fresh M) cs = some g →
      g.world.replicationLagSeconds =
        match g.lastSeconds with
        | some s => int64OfFloat (Seconds (Duration.mul (Duration.ofUint s) Second))
        | none => 0)
    ∧ (∀ (cs : List (Call M ε)) (g : Ghost M) (s : Nat),
      run (Ghost.fresh M) cs = some g → g.lastSeconds = some s →
      (s : Int) * Second ≤ maxDuration →
      g.world.replicationLagSeconds = (s : Int)) := by
  refine ⟨?_, ?_, ?_, ?_⟩
  · intro query now w o h hne
    have hstep : step w (Call.Status query now) = some o.world := by
      rw [step, h]; rfl
    rcases step_Status_cases query now w o.world hstep with
      ⟨_, hw⟩ | ⟨m, st, hm, hq, hrun, hknown, _, _⟩
    · rw [hw] at hne
      exact absurd rfl hne
    · exact ⟨m, st, hm, hq, hrun, hknown⟩
  · intro query now w o m h hm hcase
    rcases hcase with ⟨e, hq⟩ | ⟨st, hq, hdown⟩
    · rw [Status_failure query now w hm hq] at h
      simp only [Option.some.injEq] at h
      rw [← h]
    · rw [Status_unknown query now w hm hq hdown] at h
      simp only [Option.some.injEq] at h
      rw [← h]
      by_cases h0 : w.p.timeRecorded = 0 <;> simp [h0]
  · intro cs g hrun
    have hv := run_valueInv cs (Ghost.fresh M) g (valueInv_fresh M) hrun
    unfold valueInv at hv
    cases hl : g.lastSeconds with
    | none => rw [hl] at hv; exact hv.1
    | some s => rw [hl] at hv; exact hv.1
  · intro cs g s hrun hl hfit
    have hv := run_valueInv cs (Ghost.fresh M) g (valueInv_fresh M) hrun
    unfold valueInv at hv
    rw [hl] at hv
    rw [hv.1, lag_of_fits hfit, gauge_of_fits hfit]

/-- A witness of C6: after an observation of 5 s and an extrapolating poll the
gauge holds 5. -/
theorem C6_gauge_only_on_observation_witness :
    ∃ g : Ghost Unit,
      run (Ghost.fresh Unit)
        [Call.InitDBConfig (some ()),
         Call.Status (fun _ => .ok ⟨true, false, 5⟩ : Query Unit Nat) 100,
         Call.Status (fun _ => .ok ⟨false, false, 0⟩ : Query Unit Nat) 200] = some g
      ∧ g.lastSeconds = some 5 ∧ g.world.replicationLagSeconds = 5 := by
  have hrun : run (Ghost.fresh Unit)
      [Call.InitDBConfig (some ()),
       Call.Status (fun _ => .ok ⟨true, false, 5⟩ : Query Unit Nat) 100,
       Call.Status (fun _ => .ok ⟨false, false, 0⟩ : Query Unit Nat) 200] = some
        { world := { p := { mysqld := some (), lag := 5000000000, timeRecorded := 100 },
                     replicationLagSeconds := 5 },
          lastSeconds := some 5, observations := 1 } := by
    rw [run_InitDBConfig,
      run_observe _ _ _ _ () ⟨true, false, 5⟩ rfl rfl rfl rfl (by decide),
      run_extrapolate _ _ _ _ () ⟨false, false, 0⟩ rfl rfl (Or.inl rfl)]
    rfl
  refine ⟨_, hrun, rfl, ?_⟩
  exact (C6_gauge_only_on_observation Unit Nat).2.2.2 _ _ 5 hrun rfl (by decide)

/-- C7. Cache invariant. In every state `g` reached from the freshly
constructed tracker by a run `cs` of `InitDBConfig` and `Status` calls, on a
clock that starts after the zero instant and never goes back, `timeRecorded`
is unset exactly when no call has made a real observation; and once it is
set, after any further calls `cs2` it is still set and holds a later-or-equal
time. -/
theorem C7_cache_invariant {M ε : Type} (start : Time) (cs cs2 : List (Call M ε))
    (g g2 : Ghost M) (hstart : 0 < start) (hclock : clockFrom start (cs ++ cs2))
    (hrun : run (Ghost.fresh M) cs = some g) (hrun2 : run g cs2 = some g2) :
    (g.world.p.timeRecorded.IsZero = true ↔ g.observations = 0)
    ∧ (g.world.p.timeRecorded.IsZero = false →
        g2.world.p.timeRecorded.IsZero = false
          ∧ g.world.p.timeRecorded ≤ g2.world.p.timeRecorded) := by
  rw [clockFrom_append] at hclock
  obtain ⟨hc1, hc2⟩ := hclock
  obtain ⟨hinv, _⟩ := run_timeInv cs start (Ghost.fresh M) g hc1 (timeInv_fresh M hstart) hrun
  obtain ⟨_, hmono⟩ := run_timeInv cs2 (clockEnd start cs) g g2 hc2 hinv hrun2
  obtain ⟨_, h0, _, hiff⟩ := hinv
  refine ⟨?_, fun hset => ⟨?_, hmono⟩⟩
  · simpa [Time.IsZero] using hiff
  · have h1 : g.world.p.timeRecorded ≠ 0 := by simpa [Time.IsZero] using hset
    have h2 : (0 : Int) < g.world.p.timeRecorded := lt_of_le_of_ne h0 (Ne.symm h1)
    have h3 : g2.world.p.timeRecorded ≠ 0 := ne_of_gt (lt_of_lt_of_le h2 hmono)
    simpa [Time.IsZero] using h3

/-- A witness of C7: an observation at instant 100, then one at instant
300. -/
theorem C7_cache_invariant_witness :
    ((100 : Time).IsZero = true ↔ 1 = 0)
    ∧ ((100 : Time).IsZero = false → (300 : Time).IsZero = false ∧ (100 : Time) ≤ 300) :=
  C7_cache_invariant 1
    [Call.InitDBConfig (some ()),
     Call.Status (fun _ => .ok ⟨true, false, 5⟩ : Query Unit Nat) 100]
    [Call.Status (fun _ => .ok ⟨true, false, 2⟩ : Query Unit Nat) 300]
    { world := { p := { mysqld := some (), lag := 5000000000, timeRecorded := 100 },
                 replicationLagSeconds := 5 },
      lastSeconds := some 5, observations := 1 }
    { world := { p := { mysqld := some (), lag := 2000000000, timeRecorded := 300 },
                 replicationLagSeconds := 2 },
      lastSeconds := some 2, observations := 2 }
    (by decide)
    ⟨by decide, by decide, trivial⟩
    (by
      rw [run_InitDBConfig,
        run_observe _ _ _ _ () ⟨true, false, 5⟩ rfl rfl rfl rfl (by decide)]
      rfl)
    (by
      rw [run_observe _ _ _ _ () ⟨true, false, 2⟩ rfl rfl rfl rfl (by decide)]
      rfl)

/-- C8, as stated, fails. A tracker observes a lag of one second at instant 1
and is polled when the clock shows `2 ^ 63 - 1` with replication stopped: the
elapsed time is `2 ^ 63 - 2` nanoseconds, adding the cached second wraps
around, and the estimate returned is negative, below the cached lag. -/
theorem C8_counterexample :
    ∃ (g : Ghost Unit) (o : Outcome Unit Nat),
      run (Ghost.fresh Unit)
        [Call.InitDBConfig (some ()),
         Call.Status (fun _ => .ok ⟨true, false, 1⟩ : Query Unit Nat) 1] = some g
      ∧ g.world.p.timeRecorded.IsZero = false
      ∧ g.world.p.lag = 1000000000
      ∧ Status (fun _ => .ok ⟨false, false, 0⟩ : Query Unit Nat) (2 ^ 63 - 1) g.world = some o
      ∧ o.err = none
      ∧ o.lag = -9223372035854775810
      ∧ ¬ (g.world.p.lag ≤ o.lag) := by
  refine ⟨{ world := { p := { mysqld := some (), lag := 1000000000, timeRecorded := 1 },
                       replicationLagSeconds := 1 },
            lastSeconds := some 1, observations := 1 },
          { world := { p := { mysqld := some (), lag := 1000000000, timeRecorded := 1 },
                       replicationLagSeconds := 1 },
            lag := -9223372035854775810, err := none }, ?_, ?_, rfl, ?_, rfl, rfl, ?_⟩
  · rw [run_InitDBConfig,
      run_observe _ _ _ _ () ⟨true, false, 1⟩ rfl rfl rfl rfl (by decide)]
    rfl
  · decide
  · decide
  · decide

/-- C8, amended. In every state reached from the freshly constructed tracker
by a run of calls, whatever the daemons reply, on a clock that starts after
the zero instant and never goes back, a poll that takes the extrapolation
branch returns an estimate greater than or equal to the cached lag, provided
the sum `now.Sub(timeRecorded) + lag` does not exceed the largest
`time.Duration`. -/
theorem C8_estimate_ge_lag {M ε : Type} (start : Time) (cs : List (Call M ε))
    (query : Query M ε) (now : Time) (g : Ghost M) (m : M) (st : ReplicationStatus)
    (hstart : 0 < start)
    (hclock : clockFrom start (cs ++ [Call.Status query now]))
    (hrun : run (Ghost.fresh M) cs = some g)
    (hm : g.world.p.mysqld = some m) (hq : query m = .ok st)
    (hdown : st.ReplicationRunning = false ∨ st.ReplicationLagUnknown = true)
    (hset : g.world.p.timeRecorded.IsZero = false)
    (hfit : Time.Sub now g.world.p.timeRecorded + g.world.p.lag ≤ maxDuration) :
    ∃ o : Outcome M ε, Status query now g.world = some o ∧ o.err = none
      ∧ o.lag = Time.Sub now g.world.p.timeRecorded + g.world.p.lag
      ∧ g.world.p.lag ≤ o.lag := by
  rw [clockFrom_append] at hclock
  obtain ⟨hc1, hc2, _⟩ := hclock
  obtain ⟨⟨_, _, hle, _⟩, _⟩ :=
    run_timeInv cs start (Ghost.fresh M) g hc1 (timeInv_fresh M hstart) hrun
  have hv := run_valueInv cs (Ghost.fresh M) g (valueInv_fresh M) hrun
  have hlag : minDuration ≤ g.world.p.lag := by
    unfold valueInv at hv
    cases hl : g.lastSeconds with
    | none =>
      rw [hl] at hv
      rw [hv.2]
      unfold minDuration
      norm_num
    | some s =>
      rw [hl] at hv
      rw [hv.2]
      exact (inInt64_wrap64 _).1
  have hel : g.world.p.timeRecorded ≤ now := le_trans hle hc2
  have h0 : g.world.p.timeRecorded ≠ 0 := by simpa [Time.IsZero] using hset
  have h := Status_unknown query now g.world hm hq hdown
  rw [if_neg h0] at h
  have hsub : 0 ≤ Time.Sub now g.world.p.timeRecorded := by
    simp only [Time] at hel
    unfold Time.Sub minDuration maxDuration
    simp only [Time]
    split_ifs <;> omega
  have hex : Duration.add (Since now g.world.p.timeRecorded) g.world.p.lag
      = Time.Sub now g.world.p.timeRecorded + g.world.p.lag := by
    unfold Duration.add Since
    apply wrap64_of_inInt64
    unfold maxDuration at hfit
    unfold minDuration at hlag
    unfold inInt64 minDuration maxDuration
    constructor <;> omega
  refine ⟨_, h, rfl, hex, ?_⟩
  show g.world.p.lag ≤ Duration.add (Since now g.world.p.timeRecorded) g.world.p.lag
  rw [hex]
  omega

/-- A witness of C8: 5 s observed at instant 100, replication stopped ten
seconds later. -/
theorem C8_estimate_ge_lag_witness :
    ∃ o : Outcome Unit Nat,
      Status (fun _ => .ok ⟨false, false, 0⟩ : Query Unit Nat) 10000000100
        { p := { mysqld := some (), lag := 5000000000, timeRecorded := 100 },
          replicationLagSeconds := 5 } = some o ∧ o.err = none
      ∧ o.lag = Time.Sub 10000000100 100 + 5000000000
      ∧ (5000000000 : Int) ≤ o.lag :=
  C8_estimate_ge_lag 1
    [Call.InitDBConfig (some ()),
     Call.Status (fun _ => .ok ⟨true, false, 5⟩ : Query Unit Nat) 100]
    (fun _ => .ok ⟨false, false, 0⟩) 10000000100
    { world := { p := { mysqld := some (), lag := 5000000000, timeRecorded := 100 },
                 replicationLagSeconds := 5 },
      lastSeconds := some 5, observations := 1 }
    () ⟨false, false, 0⟩ (by decide)
    ⟨by decide, by decide, trivial⟩
    (by
      rw [run_InitDBConfig,
        run_observe _ _ _ _ () ⟨true, false, 5⟩ rfl rfl rfl rfl (by decide)]
      rfl)
    rfl rfl (Or.inl rfl) rfl (by decide)

/-- C9, as stated, fails. The cache holds a lag of one second recorded at
instant 1. A poll at `t1 = 2 ^ 63 - 10 ^ 9` with replication stopped returns
the largest `time.Duration`; a poll one nanosecond later returns the
smallest one, because the addition wraps around. -/
theorem C9_counterexample :
    ∃ o1 o2 : Outcome Unit Nat,
      Status (fun _ => .ok ⟨false, false, 0⟩ : Query Unit Nat) (2 ^ 63 - 10 ^ 9)
        { p := { mysqld := some (), lag := 1000000000, timeRecorded := 1 },
          replicationLagSeconds := 1 } = some o1
      ∧ Status (fun _ => .ok ⟨false, false, 0⟩ : Query Unit Nat) (2 ^ 63 - 10 ^ 9 + 1)
          o1.world = some o2
      ∧ o1.err = none ∧ o2.err = none
      ∧ o1.lag = 9223372036854775807 ∧ o2.lag = -9223372036854775808
      ∧ ¬ (o1.lag ≤ o2.lag) := by
  refine ⟨{ world := { p := { mysqld := some (), lag := 1000000000, timeRecorded := 1 },
                       replicationLagSeconds := 1 },
            lag := 9223372036854775807, err := none },
          { world := { p := { mysqld := some (), lag := 1000000000, timeRecorded := 1 },
                       replicationLagSeconds := 1 },
            lag := -9223372036854775808, err := none }, ?_, ?_, rfl, rfl, rfl, rfl, ?_⟩
  · decide
  · decide
  · decide

/-- C9, amended. For every state with `timeRecorded` set and all clock
readings `t1 ≤ t2`: when `Status` is polled at `t1` and then at `t2`, the
daemon reporting replication not running or the lag unknown both times, and
neither sum `t.Sub(timeRecorded) + lag` leaves the signed 64-bit range, both
polls return an estimate and the second is greater than or equal to the
first. -/
theorem C9_estimates_monotone {M ε : Type} (query1 query2 : Query M ε) (t1 t2 : Time)
    (w : World M) (m : M) (st1 st2 : ReplicationStatus) (hm : w.p.mysqld = some m)
    (hq1 : query1 m = .ok st1) (hq2 : query2 m = .ok st2)
    (hdown1 : st1.ReplicationRunning = false ∨ st1.ReplicationLagUnknown = true)
    (hdown2 : st2.ReplicationRunning = false ∨ st2.ReplicationLagUnknown = true)
    (hset : w.p.timeRecorded.IsZero = false) (h12 : t1 ≤ t2)
    (hfit1 : inInt64 (Time.Sub t1 w.p.timeRecorded + w.p.lag))
    (hfit2 : inInt64 (Time.Sub t2 w.p.timeRecorded + w.p.lag)) :
    ∃ o1 o2 : Outcome M ε, Status query1 t1 w = some o1
      ∧ Status query2 t2 o1.world = some o2
      ∧ o1.err = none ∧ o2.err = none ∧ o1.lag ≤ o2.lag := by
  have h0 : w.p.timeRecorded ≠ 0 := by simpa [Time.IsZero] using hset
  have e1 := Status_unknown query1 t1 w hm hq1 hdown1
  have e2 := Status_unknown query2 t2 w hm hq2 hdown2
  rw [if_neg h0] at e1 e2
  refine ⟨_, _, e1, e2, rfl, rfl, ?_⟩
  show Duration.add (Since t1 w.p.timeRecorded) w.p.lag
    ≤ Duration.add (Since t2 w.p.timeRecorded) w.p.lag
  unfold Duration.add Since
  rw [wrap64_of_inInt64 hfit1, wrap64_of_inInt64 hfit2]
  have hmono : Time.Sub t1 w.p.timeRecorded ≤ Time.Sub t2 w.p.timeRecorded := by
    simp only [Time] at h12
    unfold Time.Sub minDuration maxDuration
    simp only [Time]
    split_ifs <;> omega
  omega

/-- A witness of C9: 5 s recorded at instant 7, polls ten and twelve seconds
later. -/
theorem C9_estimates_monotone_witness :
    ∃ o1 o2 : Outcome Unit Nat,
      Status (fun _ => .ok ⟨false, false, 0⟩ : Query Unit Nat) 10000000007
        { p := { mysqld := some (), lag := 5000000000, timeRecorded := 7 },
          replicationLagSeconds := 5 } = some o1
      ∧ Status (fun _ => .ok ⟨true, true, 0⟩ : Query Unit Nat) 12000000007 o1.world = some o2
      ∧ o1.err = none ∧ o2.err = none ∧ o1.lag ≤ o2.lag :=
  C9_estimates_monotone (fun _ => .ok ⟨false, false, 0⟩) (fun _ => .ok ⟨true, true, 0⟩)
    10000000007 12000000007
    { p := { mysqld := some (), lag := 5000000000, timeRecorded := 7 },
      replicationLagSeconds := 5 } () ⟨false, false, 0⟩ ⟨true, true, 0⟩
    rfl rfl rfl (Or.inl rfl) (Or.inr rfl) rfl (by decide) (by decide) (by decide)

/-- C10. The concrete scenario. On a fresh tracker bound to a daemon `m`, with
the clock at an instant `t0` other than the zero instant: an observation of
5 s at `t0` returns 5 s and sets the gauge to 5; a reply with the lag unknown
at `t0 + 10 s` returns 15 s and leaves the gauge at 5; an observation of 2 s
at `t0 + 12 s` returns 2 s and sets the gauge to 2. -/
theorem C10_scenario {M ε : Type} (m : M) (t0 : Time) (q1 q2 q3 : Query M ε)
    (st2 : ReplicationStatus) (ht0 : t0.IsZero = false)
    (h1 : q1 m = .ok ⟨true, false, 5⟩)
    (h2 : q2 m = .ok st2) (hunknown : st2.ReplicationLagUnknown = true)
    (h3 : q3 m = .ok ⟨true, false, 2⟩) :
    ∃ o1 o2 o3 : Outcome M ε,
      Status q1 t0 (InitDBConfig (World.fresh M) (some m)) = some o1
      ∧ o1.lag = 5 * Second ∧ o1.err = none ∧ o1.world.replicationLagSeconds = 5
      ∧ Status q2 (t0 + 10 * Second) o1.world = some o2
      ∧ o2.lag = 15 * Second ∧ o2.err = none ∧ o2.world.replicationLagSeconds = 5
      ∧ Status q3 (t0 + 12 * Second) o2.world = some o3
      ∧ o3.lag = 2 * Second ∧ o3.err = none ∧ o3.world.replicationLagSeconds = 2 := by
  have e1 := @Status_observe M ε q1 t0 (InitDBConfig (World.fresh M) (some m)) m
    ⟨true, false, 5⟩ rfl h1 rfl rfl (by decide)
  have h0 : t0 ≠ 0 := by simpa [Time.IsZero] using ht0
  have e2 := Status_unknown q2 (t0 + 10 * Second)
    { p := { mysqld := some m, lag := ((5 : Nat) : Int) * Second, timeRecorded := t0 },
      replicationLagSeconds := ((5 : Nat) : Int) } rfl h2 (Or.inr hunknown)
  rw [if_neg h0] at e2
  have e3 := @Status_observe M ε q3 (t0 + 12 * Second)
    { p := { mysqld := some m, lag := ((5 : Nat) : Int) * Second, timeRecorded := t0 },
      replicationLagSeconds := ((5 : Nat) : Int) } m
    ⟨true, false, 2⟩ rfl h3 rfl rfl (by decide)
  refine ⟨_, _, _, e1, rfl, rfl, rfl, e2, ?_, rfl, rfl, e3, rfl, rfl, rfl⟩
  show Duration.add (Since (t0 + 10 * Second) t0) (((5 : Nat) : Int) * Second) = 15 * Second
  rw [Duration_add_Since_exact]
  · simp only [Time]; unfold Second; omega
  · simp only [Time]; unfold inInt64 minDuration maxDuration Second; constructor <;> omega
  · simp only [Time]; unfold inInt64 minDuration maxDuration Second; constructor <;> omega

/-- A witness of C10 at `t0 = 1000`. -/
theorem C10_scenario_witness :
    ∃ o1 o2 o3 : Outcome Unit Nat,
      Status (fun _ => .ok ⟨true, false, 5⟩) 1000
        (InitDBConfig (World.fresh Unit) (some ())) = some o1
      ∧ o1.lag = 5 * Second ∧ o1.err = none ∧ o1.world.replicationLagSeconds = 5
      ∧ Status (fun _ => .ok ⟨false, true, 0⟩) (1000 + 10 * Second) o1.world = some o2
      ∧ o2.lag = 15 * Second ∧ o2.err = none ∧ o2.world.replicationLagSeconds = 5
      ∧ Status (fun _ => .ok ⟨true, false, 2⟩) (1000 + 12 * Second) o2.world = some o3
      ∧ o3.lag = 2 * Second ∧ o3.err = none ∧ o3.world.replicationLagSeconds = 2 :=
  C10_scenario () 1000 (fun _ => .ok ⟨true, false, 5⟩) (fun _ => .ok ⟨false, true, 0⟩)
    (fun _ => .ok ⟨true, false, 2⟩) ⟨false, true, 0⟩ rfl rfl rfl rfl rfl

/-! ## Rebinding, the conversion, and the extrapolation base -/

/-- C11. `InitDBConfig` only rebinds the daemon: afterwards `mysqld` is the
value handed in, and `lag`, `timeRecorded` and the gauge are as before. The
next `Status` call on a bound daemon `m` returns, asks `m` (its outcome is
the same for any two answers of the environment that agree on `m`) and hands
a failure of `m` back. A call, of either method, after which `lag` or
`timeRecorded` differs from before is a `Status` call that made a real
observation. -/
theorem C11_InitDBConfig_rebinds (M ε : Type) :
    (∀ (w : World M) (mysqld : Option M),
      (InitDBConfig w mysqld).p.mysqld = mysqld
      ∧ (InitDBConfig w mysqld).p.lag = w.p.lag
      ∧ (InitDBConfig w mysqld).p.timeRecorded = w.p.timeRecorded
      ∧ (InitDBConfig w mysqld).replicationLagSeconds = w.replicationLagSeconds)
    ∧ (∀ (w : World M) (m : M) (query query2 : Query M ε) (now : Time),
      query m = query2 m →
      (Status query now (InitDBConfig w (some m))).isSome = true
      ∧ Status query now (InitDBConfig w (some m))
          = Status query2 now (InitDBConfig w (some m)))
    ∧ (∀ (w : World M) (m : M) (query : Query M ε) (now : Time) (e : ε),
      query m = .error e →
      Status query now (InitDBConfig w (some m)) = some
        { world := InitDBConfig w (some m), lag := 0, err := some (Error.source e) })
    ∧ (∀ (w w1 : World M) (c : Call M ε), step w c = some w1 →
      (w1.p.lag ≠ w.p.lag ∨ w1.p.timeRecorded ≠ w.p.timeRecorded) →
      ∃ query now s, c = Call.Status query now ∧ c.observation w = some s) := by
  refine ⟨fun w mysqld => ⟨rfl, rfl, rfl, rfl⟩, ?_, ?_, ?_⟩
  · intro w m query query2 now hq
    have hm : (InitDBConfig w (some m)).p.mysqld = some m := rfl
    constructor
    · cases hr : query m with
      | error e => rw [Status_failure query now _ hm hr]; rfl
      | ok st =>
        by_cases hdown : st.ReplicationRunning = false ∨ st.ReplicationLagUnknown = true
        · rw [Status_unknown query now _ hm hr hdown]; rfl
        · have hrun : st.ReplicationRunning = true := by
            cases hx : st.ReplicationRunning
            · exact absurd (Or.inl hx) hdown
            · rfl
          have hknown : st.ReplicationLagUnknown = false := by
            cases hx : st.ReplicationLagUnknown
            · rfl
            · exact absurd (Or.inr hx) hdown
          rw [Status_running query now _ hm hr hrun hknown]; rfl
    · simp only [Status, hm, hq]
  · intro w m query now e hq
    exact Status_failure query now (InitDBConfig w (some m)) rfl hq
  · intro w w1 c hstep hne
    cases c with
    | InitDBConfig mysqld =>
      rw [step_InitDBConfig] at hstep
      simp only [Option.some.injEq] at hstep
      subst hstep
      rcases hne with h | h <;> exact absurd rfl h
    | Status query now =>
      rcases step_Status_cases query now w w1 hstep with
        ⟨_, hw⟩ | ⟨m, st, _, _, _, _, hsome, _⟩
      · subst hw
        rcases hne with h | h <;> exact absurd rfl h
      · exact ⟨query, now, st.ReplicationLagSeconds, rfl, hsome⟩

/-- A witness of C11: rebinding from daemon 1 to daemon 2 keeps the cache,
and the next call hands back the failure of daemon 2, not the lag daemon 1
would report. -/
theorem C11_InitDBConfig_rebinds_witness :
    Status (fun m => if m = 2 then .error 42 else .ok ⟨true, false, 3⟩ : Query Nat Nat) 100
        (InitDBConfig
          { p := { mysqld := some 1, lag := 5000000000, timeRecorded := 7 },
            replicationLagSeconds := 5 } (some 2)) = some
      { world := { p := { mysqld := some 2, lag := 5000000000, timeRecorded := 7 },
                   replicationLagSeconds := 5 },
        lag := 0, err := some (Error.source 42) } :=
  (C11_InitDBConfig_rebinds Nat Nat).2.2.1
    { p := { mysqld := some 1, lag := 5000000000, timeRecorded := 7 },
      replicationLagSeconds := 5 } 2
    (fun m => if m = 2 then .error 42 else .ok ⟨true, false, 3⟩) 100 42 rfl

/-- C13. The seconds-to-duration conversion is exact on the unsigned 32-bit
range: for a seconds count `s < 2 ^ 32`, `s * 10 ^ 9` is below `2 ^ 63`,
`time.Duration(s) * time.Second` is `s * 10 ^ 9` with no wrap-around, and on
the fresh-observation branch `Status` stores and returns that value, which
is non-negative and a whole multiple of `Second`, and publishes
`int64(lag.Seconds()) = s` to the gauge. -/
theorem C13_conversion_exact {M ε : Type} (query : Query M ε) (now : Time) (w : World M)
    (m : M) (st : ReplicationStatus) (hm : w.p.mysqld = some m) (hq : query m = .ok st)
    (hrun : st.ReplicationRunning = true) (hknown : st.ReplicationLagUnknown = false)
    (hty : st.ReplicationLagSeconds < 2 ^ 32) :
    (st.ReplicationLagSeconds : Int) * 10 ^ 9 < 2 ^ 63
    ∧ Duration.mul (Duration.ofUint st.ReplicationLagSeconds) Second
        = (st.ReplicationLagSeconds : Int) * 10 ^ 9
    ∧ int64OfFloat (Seconds (Duration.mul (Duration.ofUint st.ReplicationLagSeconds) Second))
        = st.ReplicationLagSeconds
    ∧ ∃ o : Outcome M ε, Status query now w = some o
        ∧ o.world.p.lag = (st.ReplicationLagSeconds : Int) * 10 ^ 9
        ∧ o.lag = (st.ReplicationLagSeconds : Int) * 10 ^ 9
        ∧ 0 ≤ o.world.p.lag
        ∧ Int.tmod o.world.p.lag Second = 0
        ∧ Int.tdiv o.world.p.lag Second = st.ReplicationLagSeconds
        ∧ o.world.replicationLagSeconds = st.ReplicationLagSeconds := by
  have hsec : (st.ReplicationLagSeconds : Int) * Second
      = (st.ReplicationLagSeconds : Int) * 10 ^ 9 := by unfold Second; norm_num
  refine ⟨by omega, ?_, ?_, ?_⟩
  · rw [lag_of_fits (fits_of_lt hty), hsec]
  · rw [lag_of_fits (fits_of_lt hty), gauge_of_fits (fits_of_lt hty)]
  · refine ⟨_, Status_observe query now w hm hq hrun hknown (fits_of_lt hty),
      hsec, hsec, ?_, ?_, ?_, rfl⟩
    · show 0 ≤ (st.ReplicationLagSeconds : Int) * Second
      unfold Second; omega
    · show Int.tmod ((st.ReplicationLagSeconds : Int) * Second) Second = 0
      exact Int.mul_tmod_left _ _
    · show Int.tdiv ((st.ReplicationLagSeconds : Int) * Second) Second = _
      unfold Second
      exact Int.mul_tdiv_cancel _ (by norm_num)

/-- A witness of C13 at the largest seconds count, `2 ^ 32 - 1`. -/
theorem C13_conversion_exact_witness :
    ((4294967295 : Nat) : Int) * 10 ^ 9 < 2 ^ 63
    ∧ Duration.mul (Duration.ofUint 4294967295) Second = ((4294967295 : Nat) : Int) * 10 ^ 9
    ∧ int64OfFloat (Seconds (Duration.mul (Duration.ofUint 4294967295) Second))
        = (4294967295 : Nat) :=
  have h := C13_conversion_exact (fun _ => .ok ⟨true, false, 4294967295⟩ : Query Unit Nat) 100
    (InitDBConfig (World.fresh Unit) (some ())) () ⟨true, false, 4294967295⟩
    rfl rfl rfl rfl (by decide)
  ⟨h.1, h.2.1, h.2.2.1⟩

/-- C14. A fresh observation resets the extrapolation base. When `Status`
observes `st0` at `t0`, then observes `st1` at `t1` (an instant other than the
zero `Time`), and is then polled at `t2` with replication reported not
running or the lag unknown, all three calls return; the second returns and
stores the lag `time.Duration(s1) * time.Second` of its own seconds count
`s1` (which is `s1 * Second` when that fits a `time.Duration`), and the third
returns `t2.Sub(t1)` plus that lag with a nil error, the exact integer sum
whenever the difference and the sum fit the signed 64-bit range. The outcome
is the same for every other first observation `st0b` at `t0b` from every
other state `wb` with the same daemon bound. -/
theorem C14_observation_resets_base {M ε : Type} (q0 q1 q2 : Query M ε) (t0 t1 t2 : Time)
    (w : World M) (m : M) (st0 st1 st2 : ReplicationStatus) (hm : w.p.mysqld = some m)
    (h0 : q0 m = .ok st0) (hrun0 : st0.ReplicationRunning = true)
    (hknown0 : st0.ReplicationLagUnknown = false)
    (h1 : q1 m = .ok st1) (hrun1 : st1.ReplicationRunning = true)
    (hknown1 : st1.ReplicationLagUnknown = false)
    (h2 : q2 m = .ok st2)
    (hdown : st2.ReplicationRunning = false ∨ st2.ReplicationLagUnknown = true)
    (ht1 : t1.IsZero = false) :
    ∃ o0 o1 o2 : Outcome M ε,
      Status q0 t0 w = some o0 ∧ Status q1 t1 o0.world = some o1
      ∧ Status q2 t2 o1.world = some o2
      ∧ o1.err = none
      ∧ o1.lag = Duration.mul (Duration.ofUint st1.ReplicationLagSeconds) Second
      ∧ ((st1.ReplicationLagSeconds : Int) * Second ≤ maxDuration →
          o1.lag = (st1.ReplicationLagSeconds : Int) * Second)
      ∧ o2.err = none
      ∧ o2.lag = Duration.add (Time.Sub t2 t1) o1.lag
      ∧ (inInt64 (t2 - t1) → inInt64 (t2 - t1 + o1.lag) → o2.lag = t2 - t1 + o1.lag)
      ∧ (∀ (wb : World M) (q0b : Query M ε) (t0b : Time) (st0b : ReplicationStatus),
          wb.p.mysqld = some m → q0b m = .ok st0b → st0b.ReplicationRunning = true →
          st0b.ReplicationLagUnknown = false →
          (Status q0b t0b wb).bind (fun a =>
            (Status q1 t1 a.world).bind (fun b => Status q2 t2 b.world)) = some o2) := by
  have hz : t1 ≠ 0 := by simpa [Time.IsZero] using ht1
  have e0 := Status_running q0 t0 w hm h0 hrun0 hknown0
  have e1 : ∀ w0 : World M, w0.p.mysqld = some m → Status q1 t1 w0 = some
      { world := { p := { mysqld := some m,
                          lag := Duration.mul (Duration.ofUint st1.ReplicationLagSeconds) Second,
                          timeRecorded := t1 },
                   replicationLagSeconds := int64OfFloat (Seconds
                     (Duration.mul (Duration.ofUint st1.ReplicationLagSeconds) Second)) },
        lag := Duration.mul (Duration.ofUint st1.ReplicationLagSeconds) Second,
        err := none } :=
    fun w0 hw0 => Status_running q1 t1 w0 hw0 h1 hrun1 hknown1
  have e2 := Status_unknown q2 t2
    { p := { mysqld := some m,
             lag := Duration.mul (Duration.ofUint st1.ReplicationLagSeconds) Second,
             timeRecorded := t1 },
      replicationLagSeconds := int64OfFloat (Seconds
        (Duration.mul (Duration.ofUint st1.ReplicationLagSeconds) Second)) } rfl h2 hdown
  rw [if_neg hz] at e2
  refine ⟨_, _, _, e0, e1 _ rfl, e2, rfl, rfl, ?_, rfl, rfl, ?_, ?_⟩
  · intro hfit
    exact lag_of_fits hfit
  · intro r1 r2
    exact Duration_add_Since_exact r1 r2
  · intro wb q0b t0b st0b hmb h0b hrun0b hknown0b
    rw [Status_running q0b t0b wb hmb h0b hrun0b hknown0b]
    simp only [Option.some_bind]
    rw [e1 _ rfl]
    simp only [Option.some_bind]
    exact e2

/-- A witness of C14: 50 s observed at instant 10, 2 s observed at instant
1000, poll three seconds after the second observation. -/
theorem C14_observation_resets_base_witness :
    ∃ o0 o1 o2 : Outcome Unit Nat,
      Status (fun _ => .ok ⟨true, false, 50⟩) 10 (InitDBConfig (World.fresh Unit) (some ()))
        = some o0
      ∧ Status (fun _ => .ok ⟨true, false, 2⟩) 1000 o0.world = some o1
      ∧ Status (fun _ => .ok ⟨true, true, 0⟩) 3000001000 o1.world = some o2
      ∧ o1.lag = 2000000000 ∧ o2.err = none ∧ o2.lag = 5000000000 := by
  obtain ⟨o0, o1, o2, a0, a1, a2, _, _, a5, a6, _, a8, _⟩ :=
    C14_observation_resets_base (fun _ => .ok ⟨true, false, 50⟩ : Query Unit Nat)
      (fun _ => .ok ⟨true, false, 2⟩) (fun _ => .ok ⟨true, true, 0⟩) 10 1000 3000001000
      (InitDBConfig (World.fresh Unit) (some ())) () ⟨true, false, 50⟩ ⟨true, false, 2⟩
      ⟨true, true, 0⟩ rfl rfl rfl rfl rfl rfl rfl rfl (Or.inr rfl) rfl
  have hl : o1.lag = 2000000000 := a5 (by decide)
  refine ⟨o0, o1, o2, a0, a1, a2, hl, a6, ?_⟩
  have h := a8 (by decide) (by rw [hl]; decide)
  rw [h, hl]
  rfl

/-- C15. The estimate grows at the rate of the clock. For every state with
`timeRecorded` set, two consecutive polls at `t1` and `t2` that both find
replication not running or the lag unknown return estimates, and absent
64-bit overflow (the differences `t - timeRecorded` and the sums
`(t - timeRecorded) + lag` fit the signed 64-bit range for both readings)
the second estimate minus the first is exactly `t2 - t1`. A poll at the very
instant `timeRecorded` returns exactly the cached `lag`, a `time.Duration`. -/
theorem C15_estimate_rate {M ε : Type} (query1 query2 : Query M ε) (t1 t2 : Time)
    (w : World M) (m : M) (st1 st2 : ReplicationStatus) (hm : w.p.mysqld = some m)
    (hq1 : query1 m = .ok st1) (hq2 : query2 m = .ok st2)
    (hdown1 : st1.ReplicationRunning = false ∨ st1.ReplicationLagUnknown = true)
    (hdown2 : st2.ReplicationRunning = false ∨ st2.ReplicationLagUnknown = true)
    (hset : w.p.timeRecorded.IsZero = false) :
    (∃ o1 o2 : Outcome M ε, Status query1 t1 w = some o1
      ∧ Status query2 t2 o1.world = some o2 ∧ o1.err = none ∧ o2.err = none
      ∧ (inInt64 (t1 - w.p.timeRecorded) → inInt64 (t1 - w.p.timeRecorded + w.p.lag) →
          inInt64 (t2 - w.p.timeRecorded) → inInt64 (t2 - w.p.timeRecorded + w.p.lag) →
          o2.lag - o1.lag = t2 - t1))
    ∧ (inInt64 w.p.lag →
        Status query1 w.p.timeRecorded w = some { world := w, lag := w.p.lag, err := none }) := by
  have h0 : w.p.timeRecorded ≠ 0 := by simpa [Time.IsZero] using hset
  have e1 := Status_unknown query1 t1 w hm hq1 hdown1
  have e2 := Status_unknown query2 t2 w hm hq2 hdown2
  have e3 := Status_unknown query1 w.p.timeRecorded w hm hq1 hdown1
  rw [if_neg h0] at e1 e2 e3
  refine ⟨⟨_, _, e1, e2, rfl, rfl, ?_⟩, ?_⟩
  · intro a1 a2 b1 b2
    show Duration.add (Since t2 w.p.timeRecorded) w.p.lag
      - Duration.add (Since t1 w.p.timeRecorded) w.p.lag = t2 - t1
    rw [Duration_add_Since_exact a1 a2, Duration_add_Since_exact b1 b2]
    simp only [Time]
    omega
  · intro hl
    rw [e3]
    have hx : Duration.add (Since w.p.timeRecorded w.p.timeRecorded) w.p.lag = w.p.lag := by
      have hs : Since w.p.timeRecorded w.p.timeRecorded = 0 := by
        unfold Since Time.Sub minDuration maxDuration
        simp
      rw [hs]
      unfold Duration.add
      rw [zero_add]
      exact wrap64_of_inInt64 hl
    rw [hx]

/-- A witness of C15: 5 s recorded at instant 7, polls ten and twelve seconds
later differ by two seconds. -/
theorem C15_estimate_rate_witness :
    ∃ o1 o2 : Outcome Unit Nat,
      Status (fun _ => .ok ⟨false, false, 0⟩ : Query Unit Nat) 10000000007
        { p := { mysqld := some (), lag := 5000000000, timeRecorded := 7 },
          replicationLagSeconds := 5 } = some o1
      ∧ Status (fun _ => .ok ⟨true, true, 0⟩ : Query Unit Nat) 12000000007 o1.world = some o2
      ∧ o2.lag - o1.lag = 12000000007 - 10000000007 := by
  obtain ⟨o1, o2, a1, a2, _, _, a5⟩ :=
    (C15_estimate_rate (fun _ => .ok ⟨false, false, 0⟩ : Query Unit Nat)
      (fun _ => .ok ⟨true, true, 0⟩) 10000000007 12000000007
      { p := { mysqld := some (), lag := 5000000000, timeRecorded := 7 },
        replicationLagSeconds := 5 } () ⟨false, false, 0⟩ ⟨true, true, 0⟩
      rfl rfl rfl (Or.inl rfl) (Or.inr rfl) rfl).1
  exact ⟨o1, o2, a1, a2, a5 (by decide) (by decide) (by decide) (by decide)⟩

/-- C16. When the reply reports replication not running or the lag unknown,
its seconds count is ignored: two such replies, whatever their seconds
counts and flags, give the same outcome (returned values, poller and gauge)
from the same state at the same clock reading. A reply with the lag unknown
takes this branch also when it reports replication running: the outcome is
the unavailable error or the extrapolated estimate, and the state is
unchanged. -/
theorem C16_seconds_ignored {M ε : Type} (query query2 : Query M ε) (now : Time)
    (w : World M) (m : M) (st st2 : ReplicationStatus) (hm : w.p.mysqld = some m)
    (hq : query m = .ok st) (hq2 : query2 m = .ok st2)
    (hdown : st.ReplicationRunning = false ∨ st.ReplicationLagUnknown = true)
    (hdown2 : st2.ReplicationRunning = false ∨ st2.ReplicationLagUnknown = true) :
    Status query now w = Status query2 now w
    ∧ (∃ o : Outcome M ε, Status query now w = some o ∧ o.world = w)
    ∧ (∀ (query3 : Query M ε) (s : Nat),
        query3 m = .ok { running := true, ReplicationLagUnknown := true,
                         ReplicationLagSeconds := s } →
        Status query3 now w = some
          (if w.p.timeRecorded.IsZero then
            { world := w, lag := 0,
              err := some (Error.vterror Code.UNAVAILABLE "replication is not running") }
          else
            { world := w, lag := Duration.add (Time.Sub now w.p.timeRecorded) w.p.lag,
              err := none })) := by
  have e1 := Status_unknown query now w hm hq hdown
  have e2 := Status_unknown query2 now w hm hq2 hdown2
  refine ⟨by rw [e1, e2], ?_, ?_⟩
  · refine ⟨_, e1, ?_⟩
    by_cases h0 : w.p.timeRecorded = 0 <;> simp [h0]
  · intro query3 s hq3
    rw [Status_unknown query3 now w hm hq3 (Or.inr rfl)]
    by_cases h0 : w.p.timeRecorded = 0
    · simp [h0, Time.IsZero]
    · simp [h0, Time.IsZero, Since]

/-- A witness of C16: replies carrying 3 s and 999 s, one with replication
stopped and one with the lag unknown while running, give the same outcome. -/
theorem C16_seconds_ignored_witness :
    Status (fun _ => .ok ⟨false, false, 3⟩ : Query Unit Nat) 10000000007
        { p := { mysqld := some (), lag := 5000000000, timeRecorded := 7 },
          replicationLagSeconds := 5 }
      = Status (fun _ => .ok ⟨true, true, 999⟩ : Query Unit Nat) 10000000007
        { p := { mysqld := some (), lag := 5000000000, timeRecorded := 7 },
          replicationLagSeconds := 5 } :=
  (C16_seconds_ignored (fun _ => .ok ⟨false, false, 3⟩ : Query Unit Nat)
    (fun _ => .ok ⟨true, true, 999⟩) 10000000007
    { p := { mysqld := some (), lag := 5000000000, timeRecorded := 7 },
      replicationLagSeconds := 5 } () ⟨false, false, 3⟩ ⟨true, true, 999⟩
    rfl rfl rfl (Or.inl rfl) (Or.inr rfl)).1

end repltracker
